import Mathlib

/-
Verification development for the falcon-dbapi filter/order/aggregate expression
compiler.  The definitions below are a shallow embedding of the two backend
implementations:

* `falcon_dbapi/resources/sqlalchemy.py` (relational backend, `AlchemyMixin`
  and `CollectionResource`), and
* `falcon_dbapi/resources/elasticsearch.py` (document-search backend,
  `ElasticSearchMixin` and `CollectionResource`),
* `falcon_dbapi/resources/base.py` (`BaseCollectionResource.get_object_list`).

Python's dynamically typed values (strings, ints, bools, None, lists, dicts)
and the backend expression objects that functions pass around are embedded in
a single inductive per backend (`SqlE`, `EE`); SQLAlchemy operator functions
are opaque and deterministic, so an applied operator is represented as an AST
node tagged with the operator.  Recursion in the source (recursive descent
over condition dicts, the `efunc` recursion, the `_group_nested` while loop)
is embedded with an explicit fuel argument so every function is structurally
recursive and kernel-computable; wrappers supply sufficient fuel (each
recursive call strictly decreases the size of its argument, so
size-plus-one fuel never runs out).  Raised `HTTPBadRequest` errors and
uncaught Python exceptions (`TypeError`, `ValueError`, `IndexError`) are
embedded as `Except` errors.
-/

namespace Falcon

/-- Logical operator keywords of `AlchemyMixin._logical_operators`
(`or` to `or_`, `and` to `and_`, `not` to `not_`). -/
inductive LogOp where
  | andOp
  | orOp
  | notOp
deriving DecidableEq

/-- Column type classifier for `AlchemyMixin.deserialize_column`.  The
embedding covers entities whose columns are integer typed (the
`sqltypes.Integer` branch, which calls Python `int(value)`) or any type that
falls through to the final `return value` branch (strings, arrays, etc.);
`DateTime`/`Time`/`Float` columns are outside the embedded column-type
universe. -/
inductive ColType where
  | integer
  | other
deriving DecidableEq

/-- Tags for the non-`Function` entries of `AlchemyMixin._underscore_operators`.
Each table entry is a deterministic pure callable, so an application
`op(column, value)` is embedded as an AST node `SqlE.app` tagged with the
operator. -/
inductive SqlOp where
  | eqOp | neOp | gtOp | ltOp | geOp | leOp
  | betweenOp | notbetweenOp | inOp | notinOp
  | containsOp | notcontainsOp | icontainsOp | noticontainsOp
  | matchesOp | notmatchesOp | iexactOp | notiexactOp
  | startswithOp | notstartswithOp | endswithOp | notendswithOp
  | hasallOp | hasanyOp | haskeyOp | overlapOp
  | istartswithOp | notistartswithOp | iendswithOp | notiendswithOp
  | isnullOp | isnotnullOp | yearOp | monthOp | dayOp
deriving DecidableEq

/-- Identity of the object a column expression is read from: either the
entity class itself (`getattr(obj_class, token)`) or an alias created by
`aliased(...)` in `AlchemyMixin.next_alias` (aliases are identified by the
order of their creation within one compilation). -/
inductive Owner where
  | cls (ent : Nat)
  | alias (id : Nat)

/-- Dynamic values and SQLAlchemy expression trees flowing through the
relational compiler.  `vS`/`vI`/`vB`/`vNull`/`vList`/`vDict` embed the JSON
values a caller supplies; the remaining constructors embed the expression
objects the compiler builds (`app` is `op(column_expr, value)`, `conj`/`disj`
are `and_(*exprs)`/`or_(*exprs)`, `neg` is `not_`, `fnApp`/`fnApp2`/`fnApp0`
are `Function(name, expr)`/`Function(name, expr, value)`/`Function(name)`,
`fnExpr` is the degenerate `Function(expr, value)` when the table entry for
the final token is `Function` itself, `rowF` is `func.row(*cols)`, `descE` is
`desc(expr)`, and `termQuery` is the value returned by an entity's
`get_term_query` hook, determined by the arguments the source passes it). -/
inductive SqlE where
  | vS (s : String)
  | vI (n : Int)
  | vB (b : Bool)
  | vNull
  | vList (l : List SqlE)
  | vDict (d : List (String × SqlE))
  | colref (o : Owner) (name : String)
  | app (op : SqlOp) (e : SqlE) (v : SqlE)
  | conj (l : List SqlE)
  | disj (l : List SqlE)
  | neg (e : SqlE)
  | fnApp (name : String) (e : SqlE)
  | fnApp2 (name : String) (e : SqlE) (v : SqlE)
  | fnApp0 (name : String)
  | fnExpr (e : SqlE) (v : SqlE)
  | rowF (l : List SqlE)
  | descE (e : SqlE)
  | termQuery (ent : Nat) (o : Owner) (c : Option SqlE) (v : SqlE) (isOr : Bool)

/-- Conditions mapping: the ordered `{name: value}` dict the compiler
consumes (Python 3.7 dicts preserve insertion order). -/
abbrev Conditions := List (String × SqlE)

/-- Errors: `HTTPBadRequest` client errors raised by the compiler, plus
uncaught Python exceptions.  `invalidColumn` is the SQLAlchemy message that
names the offending path part; `invalidColumnPath` is the Elasticsearch
end-of-loop message that only names the whole joined path;
`invalidOperator` is the Elasticsearch unknown-operator message;
`invalidFilterAttr` is the logical-operator message; `noTermQuery` is the
missing `get_term_query` hook message; `groupLimitNotInt` and
`groupByNoColumns` are the totals-builder messages.  `typeError`,
`valueError`, `indexError` model uncaught Python exceptions, and `fuelOut`
is the (unreachable with wrapper-supplied fuel) fuel exhaustion marker. -/
inductive Err where
  | invalidColumn (param : List String) (part : String)
  | invalidColumnPath (param : List String)
  | invalidOperator (param : List String) (part : String)
  | invalidFilterAttr (arg : String)
  | noTermQuery (param : List String)
  | groupLimitNotInt
  | groupByNoColumns
  | typeError
  | valueError
  | indexError
  | fuelOut
deriving DecidableEq

/-- Entity schema exposed by the SQLAlchemy mapper: column names with their
types (`mapper.column_attrs` / `mapper.columns`), relationship names with
the index of the target entity (`mapper.relationships`), the primary key
columns (`mapper.primary_key`), and whether the class defines a callable
`get_term_query`. -/
structure SqlEntity where
  columns : List (String × ColType)
  rels : List (String × Nat)
  pk : List String
  hasTermQuery : Bool

/-- Schema: entity classes indexed by natural numbers. -/
abbrev SqlSchema := Nat → SqlEntity

/-- One entry of `relationships['join_chains']`: the relation-token path, the
extended path of (alias, relation) pairs, and the outer-join flag. -/
structure JoinChain where
  tokens : List String
  ext : List (Nat × String)
  outer : Bool
deriving DecidableEq

/-- The request-scoped `relationships` registry: `aliases` maps a relation
token to the alias created for it (`next_alias` with `use_existing=True`
always reuses the latest alias for a name), `counter` generates fresh alias
identities, and `joinChains` collects registered join chains in order. -/
structure Registry where
  aliases : List (String × Nat)
  counter : Nat
  joinChains : List JoinChain
deriving DecidableEq

/-- First-match association-list lookup (Python dict lookup; the embedded
dicts come from Python dicts, whose keys are unique). -/
def lookupStr {α : Type} : List (String × α) → String → Option α
  | [], _ => none
  | (k, v) :: rest, key => if k = key then some v else lookupStr rest key

/-- Splitting a parameter name on the two-character separator, as Python
`arg.split('__')`: non-overlapping, left to right. -/
def splitTokensAux : List Char → List Char → List String
  | [], acc => [String.mk acc.reverse]
  | '_' :: '_' :: rest, acc => String.mk acc.reverse :: splitTokensAux rest []
  | c :: rest, acc => splitTokensAux rest (c :: acc)

/-- Python `arg.split('__')`. -/
def splitTokens (s : String) : List String := splitTokensAux s.data []

/-- Lookup in `AlchemyMixin._underscore_operators` for the non-`Function`
entries (the three `func`/`sfunc`/`efunc` keys map to `Function` and are
handled separately). -/
def opOfToken (t : String) : Option SqlOp :=
  if t = "exact" then some .eqOp
  else if t = "notexact" then some .neOp
  else if t = "gt" then some .gtOp
  else if t = "lt" then some .ltOp
  else if t = "gte" then some .geOp
  else if t = "lte" then some .leOp
  else if t = "range" then some .betweenOp
  else if t = "notrange" then some .notbetweenOp
  else if t = "in" then some .inOp
  else if t = "notin" then some .notinOp
  else if t = "contains" then some .containsOp
  else if t = "notcontains" then some .notcontainsOp
  else if t = "icontains" then some .icontainsOp
  else if t = "noticontains" then some .noticontainsOp
  else if t = "match" then some .matchesOp
  else if t = "notmatch" then some .notmatchesOp
  else if t = "iexact" then some .iexactOp
  else if t = "notiexact" then some .notiexactOp
  else if t = "startswith" then some .startswithOp
  else if t = "notstartswith" then some .notstartswithOp
  else if t = "endswith" then some .endswithOp
  else if t = "notendswith" then some .notendswithOp
  else if t = "hasall" then some .hasallOp
  else if t = "hasany" then some .hasanyOp
  else if t = "haskey" then some .haskeyOp
  else if t = "overlap" then some .overlapOp
  else if t = "istartswith" then some .istartswithOp
  else if t = "notistartswith" then some .notistartswithOp
  else if t = "iendswith" then some .iendswithOp
  else if t = "notiendswith" then some .notiendswithOp
  else if t = "isnull" then some .isnullOp
  else if t = "isnotnull" then some .isnotnullOp
  else if t = "year" then some .yearOp
  else if t = "month" then some .monthOp
  else if t = "day" then some .dayOp
  else none

/-- Tokens whose `_underscore_operators` entry is `Function`. -/
def isFuncToken (t : String) : Bool :=
  t = "func" || t = "sfunc" || t = "efunc"

/-- Membership in `AlchemyMixin._underscore_operators`. -/
def inUnderscoreOps (t : String) : Bool :=
  (opOfToken t).isSome || isFuncToken t

/-- Decimal digit value of a character. -/
def digitVal (c : Char) : Option Nat :=
  if '0' ≤ c ∧ c ≤ '9' then some (c.toNat - '0'.toNat) else none

/-- Left-to-right accumulation of decimal digits. -/
def pyIntAux : List Char → Nat → Option Nat
  | [], acc => some acc
  | c :: rest, acc =>
      match digitVal c with
      | some d => pyIntAux rest (acc * 10 + d)
      | none => none

/-- Optionally signed decimal literal over characters. -/
def pyIntSigned : List Char → Option Int
  | [] => none
  | '-' :: rest =>
      if rest.isEmpty then none
      else (pyIntAux rest 0).map (fun n => -(n : Int))
  | '+' :: rest =>
      if rest.isEmpty then none
      else (pyIntAux rest 0).map (fun n => (n : Int))
  | l => (pyIntAux l 0).map (fun n => (n : Int))

/-- Python `int(s)` on a string (raises `ValueError` on a malformed
literal); embedded for optionally signed decimal digit strings. -/
def pyInt (s : String) : Except Err Int :=
  match pyIntSigned s.data with
  | some n => .ok n
  | none => .error .valueError

/-- `AlchemyMixin.deserialize_column` restricted to the embedded column-type
universe: `None` passes through first; an integer column converts with
Python `int(value)` (accepting ints, bools and integer literals and raising
otherwise); any other column type returns the value unchanged (the final
`return value` branch). -/
def deserializeColumn (ct : ColType) (v : SqlE) : Except Err SqlE :=
  match ct, v with
  | _, .vNull => .ok .vNull
  | .integer, .vS s => do
      let n ← pyInt s
      .ok (.vI n)
  | .integer, .vI n => .ok (.vI n)
  | .integer, .vB b => .ok (.vI (if b then 1 else 0))
  | .integer, _ => .error .typeError
  | .other, v => .ok v

/-- Value transformation at an operator token (`sqlalchemy.py` lines
503-507): a list deserializes elementwise, anything else deserializes
directly. -/
def sqlaDeserializeValue (ct : ColType) (v : SqlE) : Except Err SqlE :=
  match v with
  | .vList l => do
      let l2 ← l.mapM (deserializeColumn ct)
      .ok (.vList l2)
  | v => deserializeColumn ct v

/-- Python truth test on an embedded value. -/
def isVList : SqlE → Bool
  | .vList _ => true
  | _ => false

/-- `AlchemyMixin.next_alias` with `use_existing=True` (the only mode the
compiler uses): reuse the alias registered for this relation name, otherwise
create a fresh one. -/
def nextAlias (reg : Registry) (name : String) : Nat × Registry :=
  match lookupStr reg.aliases name with
  | some a => (a, reg)
  | none =>
      (reg.counter,
       { aliases := (name, reg.counter) :: reg.aliases,
         counter := reg.counter + 1,
         joinChains := reg.joinChains })

/-- Loop state of `AlchemyMixin._parse_tokens`: the bound column (the source
sets `column_name` and `column` together), the current alias the next column
binds to, the current entity (`obj_class`/`mapper`), and the join chain
accumulated so far. -/
structure ParseSt where
  bound : Option (SqlE × ColType)
  colAlias : Owner
  ent : Nat
  joinChain : List String
  joinChainExt : List (Nat × String)
  joinIsOuter : Bool

/-- Fresh `_parse_tokens` state for a root entity. -/
def initParseSt (ent : Nat) : ParseSt :=
  { bound := none, colAlias := .cls ent, ent := ent,
    joinChain := [], joinChainExt := [], joinIsOuter := false }

/-- `relationships['join_chains'].append((join_chain, join_chain_ext,
join_is_outer))`, guarded by `if join_chain:`. -/
def pushChain (reg : Registry) (st : ParseSt) : Registry :=
  if st.joinChain.isEmpty then reg
  else
    { reg with joinChains :=
        reg.joinChains ++ [⟨st.joinChain, st.joinChainExt, st.joinIsOuter⟩] }

/-- The `default_expression` lambdas the callers of `_parse_tokens` pass:
`filter` passes `lambda c, n, v: operators.eq(n, self.deserialize_column(c,
v))` (`eqD`); order criteria, totals columns and the inner `efunc` call pass
`lambda c, n, v: n` (`colD`); `noneD` is the `None` default. -/
inductive SqlaDflt where
  | noneD
  | eqD
  | colD

/-- Bound column for the operator branch: the source guard is
`column_name is not None and token in self._underscore_operators`. -/
def opBranchOn (st : ParseSt) (tok : String) : Option (SqlE × ColType) :=
  match st.bound with
  | some b => if inUnderscoreOps tok then some b else none
  | none => none

/-- Loop body of `AlchemyMixin._parse_tokens` (with `_build_expression`
inlined at the operator branch).  Arguments: fuel, the full token list
(Python closes over `tokens` for `tokens[-1]` and the joined error message),
the remaining tokens, the current value, the loop state, the registry and
the default expression.  The `efunc` branch restarts `_parse_tokens` on
`tokens[index+1:-1]`, which the fuel covers because that list is shorter
than the remaining input. -/
def sqlaGo (S : SqlSchema) (ig : Bool) :
    Nat → List String → List String → SqlE → ParseSt → Registry → SqlaDflt →
    Except Err (Option SqlE × Registry)
  | 0, _, _, _, _, _, _ => .error .fuelOut
  | _ + 1, _tokens, [], value, st, reg, dflt =>
      let reg := pushChain reg st
      match st.bound, dflt with
      | some (cn, ct), .eqD => do
          let dv ← deserializeColumn ct value
          .ok (some (.app .eqOp cn dv), reg)
      | some (cn, _), .colD => .ok (some cn, reg)
      | _, _ => .ok (none, reg)
  | fuel + 1, tokens, tok :: rest, value, st, reg, dflt =>
      if tok = "q" then
        if (S st.ent).hasTermQuery then
          .ok (some (.termQuery st.ent st.colAlias (st.bound.map (·.1)) value
                      (decide (tokens.getLast? = some "or"))), reg)
        else .error (.noTermQuery tokens)
      else
        match opBranchOn st tok with
        | some (cn, ct) => do
            let value :=
              if (tok = "range" || tok = "in") && !isVList value then
                SqlE.vList [value]
              else value
            let value ←
              if tok ≠ "isnull" ∧ tok ≠ "isnotnull" then
                sqlaDeserializeValue ct value
              else .ok value
            let (expr, reg) ←
              match opOfToken tok with
              | some o => .ok ((SqlE.app o cn value : SqlE), reg)
              | none => do
                  let (expression, value, reg) ←
                    if rest.length > 1 then
                      if tok = "efunc" then do
                        let (e?, reg2) ←
                          sqlaGo S ig fuel rest.dropLast rest.dropLast value
                            (initParseSt st.ent) reg .colD
                        .ok (cn,
                             (match e? with
                              | some e => e
                              | none => SqlE.vNull),
                             reg2)
                      else
                        .ok (rest.dropLast.foldl
                               (fun e fname => SqlE.fnApp fname e) cn,
                             value, reg)
                    else .ok (cn, value, reg)
                  match tokens.getLast? with
                  | none => .error .indexError
                  | some last =>
                      if isFuncToken last then
                        .ok ((SqlE.fnExpr expression value : SqlE), reg)
                      else
                        match opOfToken last with
                        | some o => .ok ((SqlE.app o expression value : SqlE), reg)
                        | none =>
                            if tok = "sfunc" then
                              .ok ((SqlE.fnApp last expression : SqlE), reg)
                            else
                              .ok ((SqlE.fnApp2 last expression value : SqlE), reg)
            let st := if tok = "isnull" then { st with joinIsOuter := true } else st
            let reg := pushChain reg st
            .ok (some expr, reg)
        | none =>
            match lookupStr (S st.ent).rels tok with
            | some target =>
                let (aid, reg2) := nextAlias reg tok
                sqlaGo S ig fuel tokens rest value
                  { st with ent := target, colAlias := .alias aid,
                            joinChain := st.joinChain ++ [tok],
                            joinChainExt := st.joinChainExt ++ [(aid, tok)] }
                  reg2 dflt
            | none =>
                match lookupStr (S st.ent).columns tok with
                | none =>
                    if ig then .ok (none, reg)
                    else .error (.invalidColumn tokens tok)
                | some ct =>
                    sqlaGo S ig fuel tokens rest value
                      { st with bound := some (.colref st.colAlias tok, ct) }
                      reg dflt

/-- `AlchemyMixin._parse_tokens`: runs the loop with fresh state and
sufficient fuel. -/
def sqlaParseTokens (S : SqlSchema) (ig : Bool) (ent : Nat)
    (tokens : List String) (value : SqlE) (reg : Registry) (dflt : SqlaDflt) :
    Except Err (Option SqlE × Registry) :=
  sqlaGo S ig (tokens.length + 1) tokens tokens value (initParseSt ent) reg dflt

/-- Keys of `AlchemyMixin._logical_operators`. -/
def logOpOf (s : String) : Option LogOp :=
  if s = "or" then some .orOp
  else if s = "and" then some .andOp
  else if s = "not" then some .notOp
  else none

/-- Combination step shared by `_build_filter_expressions` and
`_parse_logical_op` (`sqlalchemy.py` lines 413-418 and 448-453): zero
children give `None`, one child is returned as is (negated for `not_`),
several children are joined by the default operator (`not_` joins with
`and_` and negates the conjunction). -/
def combineWith (op : LogOp) (es : List SqlE) : Option SqlE :=
  match es with
  | [] => none
  | [e] => some (if op = .notOp then .neg e else e)
  | es =>
      some (match op with
            | .andOp => .conj es
            | .orOp => .disj es
            | .notOp => .neg (.conj es))

/-- Work items of the fused condition-tree recursion: `conds` walks the
pairs of a conditions dict (the loop of `_build_filter_expressions`),
`condList` walks the list value of a logical operator (the loop of
`_parse_logical_op`). -/
inductive CondWork where
  | conds (l : List (String × SqlE))
  | condList (arg : String) (l : List SqlE)

/-- Fused recursion of `AlchemyMixin._build_filter_expressions` and
`AlchemyMixin._parse_logical_op`, collecting the non-`None` child
expressions at one level (combination with the level's default operator is
applied by the caller, matching the split between collecting
`expressions`/`subexpressions` and the final `result` computation in the
source).  A logical key with a dict value recurses with that operator as the
new default; a list value builds each member dict under `and_` and a
non-dict member (or a non-dict non-list value) raises the invalid-attribute
error; any other key is parsed as a token path with the equality default
expression. -/
def sqlaCollect (S : SqlSchema) (ig : Bool) (root : Nat) :
    Nat → CondWork → Registry → Except Err (List SqlE × Registry)
  | 0, _, _ => .error .fuelOut
  | _ + 1, .conds [], reg => .ok ([], reg)
  | fuel + 1, .conds ((arg, value) :: rest), reg => do
      let (e?, reg) ←
        match logOpOf arg with
        | some lop =>
            (match value with
             | .vDict c => do
                 let (es, reg2) ← sqlaCollect S ig root fuel (.conds c) reg
                 .ok (combineWith lop es, reg2)
             | .vList l => do
                 let (es, reg2) ← sqlaCollect S ig root fuel (.condList arg l) reg
                 .ok (combineWith lop es, reg2)
             | _ => .error (.invalidFilterAttr arg))
        | none => sqlaParseTokens S ig root (splitTokens arg) value reg .eqD
      let (es, reg) ← sqlaCollect S ig root fuel (.conds rest) reg
      .ok ((match e? with
            | some e => e :: es
            | none => es), reg)
  | _ + 1, .condList _ [], reg => .ok ([], reg)
  | fuel + 1, .condList arg (x :: rest), reg =>
      match x with
      | .vDict sc => do
          let (es1, reg) ← sqlaCollect S ig root fuel (.conds sc) reg
          let (es, reg) ← sqlaCollect S ig root fuel (.condList arg rest) reg
          .ok ((match combineWith .andOp es1 with
                | some e => e :: es
                | none => es), reg)
      | _ => .error (.invalidFilterAttr arg)

/-- `AlchemyMixin._build_filter_expressions`: collect this level's child
expressions and combine them under the default operator (`None` defaults to
`and_`). -/
def buildFilterExpressions (S : SqlSchema) (ig : Bool) (root : Nat)
    (fuel : Nat) (conds : Conditions) (dop : Option LogOp) (reg : Registry) :
    Except Err (Option SqlE × Registry) := do
  let (es, reg2) ← sqlaCollect S ig root fuel (.conds conds) reg
  .ok (combineWith (dop.getD .andOp) es, reg2)

/-- Python `set(chain_a).issubset(chain_b)`. -/
def tokensSubset (xs ys : List String) : Prop := ∀ x ∈ xs, x ∈ ys

instance (xs ys : List String) : Decidable (tokensSubset xs ys) :=
  List.decidableBAll _ xs

/-- Inner loop of `AlchemyMixin._apply_joins` for a fixed `chain_a`:
iterates all registered chains; an equal token path merges its outer flag
into `any_is_outer` and continues; a different token path whose token set
subsumes `chain_a` breaks with `is_longest = False`.  Returns
`(is_longest, any_is_outer)`. -/
def innerScan (a : JoinChain) : List JoinChain → Bool → Bool × Bool
  | [], anyOuter => (true, anyOuter)
  | b :: rest, anyOuter =>
      if a.tokens = b.tokens then innerScan a rest (anyOuter || b.outer)
      else if tokensSubset a.tokens b.tokens then (false, anyOuter)
      else innerScan a rest anyOuter

/-- Outer loop of `AlchemyMixin._apply_joins`: keep `(chain_a_ext,
any_is_outer)` for each chain that is longest, deduplicated by membership
(Python `not in longest_chains`). -/
def longestLoop (all : List JoinChain) :
    List JoinChain → List (List (Nat × String) × Bool) →
    List (List (Nat × String) × Bool)
  | [], acc => acc
  | a :: rest, acc =>
      let p := innerScan a all a.outer
      if p.1 && !decide ((a.ext, p.2) ∈ acc) then
        longestLoop all rest (acc ++ [(a.ext, p.2)])
      else longestLoop all rest acc

/-- The `longest_chains` list computed by `AlchemyMixin._apply_joins` from
the registered join chains. -/
def longestChains (chains : List JoinChain) :
    List (List (Nat × String) × Bool) :=
  longestLoop chains chains []

/-- Modifications `_filter_or_exclude` / `order_by` apply to the query:
materialized joins (each an extended chain with its outer flag), the
DISTINCT marker, the filter expression and the order expressions. -/
structure QueryState where
  joins : List (List (Nat × String) × Bool)
  distinct : Bool
  filter : Option SqlE
  order : List SqlE

/-- Query with no modification applied. -/
def emptyQuery : QueryState := ⟨[], false, none, []⟩

/-- `AlchemyMixin._apply_joins`: if no longest chain exists the query is
returned untouched; otherwise all longest chains are joined and the query is
made DISTINCT exactly when the `distinct` argument is true. -/
def applyJoins (q : QueryState) (reg : Registry) (distinct : Bool) :
    QueryState :=
  let lc := longestChains reg.joinChains
  if lc.isEmpty then q
  else { q with joins := q.joins ++ lc, distinct := q.distinct || distinct }

/-- One order criterion: a bare string, or a key-value pair coming from a
dict criteria (`criteria = list(criteria.items())`). -/
inductive OrderArg where
  | plain (s : String)
  | pair (s : String) (v : SqlE)

/-- Loop of `AlchemyMixin._build_order_expressions`: a leading `+`/`-`
selects the direction (an empty string raises `IndexError` in the source),
the stripped name is parsed as a token path with the bare-column default,
and a `None` result is skipped. -/
def buildOrderGo (S : SqlSchema) (ig : Bool) (root : Nat) :
    List OrderArg → List SqlE → Registry → Except Err (List SqlE × Registry)
  | [], acc, reg => .ok (acc, reg)
  | a :: rest, acc, reg => do
      let (arg, value) :=
        match a with
        | .plain s => (s, SqlE.vNull)
        | .pair s v => (s, v)
      match arg.data with
      | [] => .error .indexError
      | c0 :: cs => do
          let (isAsc, argStr) :=
            if c0 = '+' || c0 = '-' then (decide (c0 = '+'), String.mk cs)
            else (true, arg)
          let (e?, reg2) ←
            sqlaParseTokens S ig root (splitTokens argStr) value reg .colD
          let acc :=
            match e? with
            | some e => acc ++ [if isAsc then e else .descE e]
            | none => acc
          buildOrderGo S ig root rest acc reg2

/-- `AlchemyMixin._build_order_expressions`. -/
def buildOrderExpressions (S : SqlSchema) (ig : Bool) (root : Nat)
    (criteria : List OrderArg) (reg : Registry) :
    Except Err (List SqlE × Registry) :=
  buildOrderGo S ig root criteria [] reg

/-- Python truthiness of the optional order criteria. -/
def hasOrder : Option (List OrderArg) → Bool
  | some (_ :: _) => true
  | _ => false

/-- `AlchemyMixin._filter_or_exclude`: build the filter expressions and (if
truthy) the order expressions against one shared registry, apply the joins
with `distinct = expressions is not None`, then attach the filter and order
expressions.  `fuel` bounds the condition-tree recursion; any fuel at least
the recursion depth of the conditions value gives the source behavior (each
recursive call strictly shrinks its work item, so depth is at most the
size of the conditions). -/
def filterOrExclude (S : SqlSchema) (ig : Bool) (root : Nat) (fuel : Nat)
    (conds : Conditions) (dop : Option LogOp)
    (orderCriteria : Option (List OrderArg)) : Except Err QueryState := do
  let reg0 : Registry := ⟨[], 0, []⟩
  let (exprs?, reg1) ←
    buildFilterExpressions S ig root fuel conds dop reg0
  let (orderExprs, reg2) ←
    if hasOrder orderCriteria then
      buildOrderExpressions S ig root (orderCriteria.getD []) reg1
    else .ok ([], reg1)
  let q := applyJoins emptyQuery reg2 exprs?.isSome
  let q := { q with filter := exprs? }
  let q := if hasOrder orderCriteria then { q with order := orderExprs } else q
  .ok q

/-- `AlchemyMixin.filter_by`. -/
def filterBy (S : SqlSchema) (ig : Bool) (root : Nat) (fuel : Nat)
    (conds : Conditions) (orderCriteria : Option (List OrderArg)) :
    Except Err QueryState :=
  filterOrExclude S ig root fuel conds none orderCriteria

/-- `AlchemyMixin.exclude_by`: filters on `{'not': {'and': conditions}}`. -/
def excludeBy (S : SqlSchema) (ig : Bool) (root : Nat) (fuel : Nat)
    (conds : Conditions) : Except Err QueryState :=
  filterOrExclude S ig root fuel
    [("not", .vDict [("and", .vDict conds)])] none none

/-! Elasticsearch backend (`falcon_dbapi/resources/elasticsearch.py`). -/

/-- Entry of a document mapping (`obj_class._doc_type.mapping`): either a
plain field (with its `_multi` flag and whether it carries a
`fields['raw']` sub-field indexed `not_analyzed`), or a `Nested` object
(whose `_doc_class` may define a callable `get_term_query`, and whose
sub-mapping is the nested document's mapping). -/
inductive EFieldT where
  | plain (multi : Bool) (rawNA : Bool)
  | nestedF (hasTQ : Bool) (sub : List (String × EFieldT))

/-- Root document class: its mapping and whether it defines a callable
`get_term_query`. -/
structure EDocInfo where
  mapping : List (String × EFieldT)
  hasTQ : Bool

/-- Dynamic values and Elasticsearch query fragments flowing through the
document-search compiler.  `vS`/`vI`/`vB`/`vNull`/`vList`/`vDict` embed JSON
input values; `opE op f v expand` is `{op: {f: v}}` with the
`'_expand__to_dot': False` key present when `expand` is true; `rangeOne` is
`{'range': {f: {kind: v}}}`; `rangeBetween` is
`{'range': {f: {'gte': lo, 'lte': hi}}}`; `fieldOnly` is
`{op: {'field': f}}` (the `missing`/`exists` shapes); `boolMany` is
`{'bool': {clause: [...]}}`; `boolOne` is `{'bool': {clause: expr}}` (the
single-expression `must_not` wrap); `nestedQ` is
`{'nested': {'path': p, 'query': q}}`; `termQ` is the value returned by a
`get_term_query` hook, determined by the arguments the source passes it. -/
inductive EE where
  | vS (s : String)
  | vI (n : Int)
  | vB (b : Bool)
  | vNull
  | vList (l : List EE)
  | vDict (d : List (String × EE))
  | opE (op : String) (field : String) (v : EE) (expand : Bool)
  | rangeOne (field : String) (kind : String) (v : EE) (expand : Bool)
  | rangeBetween (field : String) (lo : EE) (hi : EE) (expand : Bool)
  | fieldOnly (op : String) (field : String) (expand : Bool)
  | boolMany (clause : String) (l : List EE)
  | boolOne (clause : String) (e : EE)
  | nestedQ (path : String) (q : EE)
  | termQ (c : Option String) (v : EE) (isOr : Bool)

/-- `ElasticSearchMixin._underscore_operators`. -/
def esOpOf (t : String) : Option String :=
  if t = "exact" then some "term"
  else if t = "notexact" then some "term"
  else if t = "gt" then some "range"
  else if t = "lt" then some "range"
  else if t = "gte" then some "range"
  else if t = "lte" then some "range"
  else if t = "range" then some "range"
  else if t = "notrange" then some "range"
  else if t = "in" then some "terms"
  else if t = "notin" then some "terms"
  else if t = "contains" then some "wildcard"
  else if t = "notcontains" then some "wildcard"
  else if t = "match" then some "match"
  else if t = "notmatch" then some "match"
  else if t = "startswith" then some "prefix"
  else if t = "notstartswith" then some "prefix"
  else if t = "endswith" then some "wildcard"
  else if t = "notendswith" then some "wildcard"
  else if t = "hasall" then some "term"
  else if t = "hasany" then some "terms"
  else if t = "haskey" then some "term"
  else if t = "overlap" then some "terms"
  else if t = "isnull" then some "missing"
  else if t = "isnotnull" then some "exists"
  else none

/-- Python truth test on an embedded document value. -/
def isEVList : EE → Bool
  | .vList _ => true
  | _ => false

/-- Python `token.startswith('not')`. -/
def startsWithNot (s : String) : Bool :=
  match s.data with
  | 'n' :: 'o' :: 't' :: _ => true
  | _ => false

/-- Loop state of `ElasticSearchMixin._parse_tokens`: the bound column name
with its field object (the source sets `column_name` and `field` together),
the current nested path, the token accumulator, the current mapping and
whether the current document class has a `get_term_query` hook. -/
structure EParseSt where
  bound : Option (String × EFieldT)
  nestedName : Option String
  accumulated : String
  mapping : List (String × EFieldT)
  hasTQ : Bool

/-- The `default_expression` lambdas passed to the Elasticsearch
`_parse_tokens`: the filter builder passes the term lambda (`termD`), the
totals builder passes `lambda n, v: n` (`nameD`), and `noneD` is the `None`
default. -/
inductive EDflt where
  | noneD
  | termD
  | nameD

/-- Nested wrap applied to a returned expression when a nested path was
followed. -/
def wrapNested (nestedName : Option String) (e : EE) : EE :=
  match nestedName with
  | some nn => .nestedQ nn e
  | none => e

/-- Loop of `ElasticSearchMixin._parse_tokens`.  The accumulated prefix is
checked against the mapping at the start of the next iteration: a `Nested`
match commits the hop (resetting the accumulator) before the next token is
appended; after appending, a non-`Nested` match binds the column (with the
`.raw` sub-field when `prefer_raw` applies). -/
def esGo (tokens : List String) (value : EE) (dflt : EDflt)
    (preventExpand preferRaw : Bool) :
    List String → EParseSt → Except Err (Option EE)
  | [], st =>
      match st.bound with
      | none => .error (.invalidColumnPath tokens)
      | some (cn, _) =>
          match dflt with
          | .noneD => .ok none
          | .termD => .ok (some (wrapNested st.nestedName (.opE "term" cn value preventExpand)))
          | .nameD => .ok (some (wrapNested st.nestedName (.vS cn)))
  | tok :: rest, st =>
      if tok = "q" then
        if st.hasTQ then
          .ok (some (.termQ (st.bound.map (·.1)) value
                      (decide (tokens.getLast? = some "or"))))
        else .error (.noTermQuery tokens)
      else
        match st.bound with
        | some (cn, fld) =>
            match esOpOf tok with
            | none => .error (.invalidOperator tokens tok)
            | some op => do
                let multi := match fld with | .plain m _ => m | _ => false
                let value :=
                  if (tok = "range" || tok = "notrange" || tok = "in" ||
                      tok = "notin" || tok = "hasany" || tok = "overlap")
                     || ((tok = "contains" || tok = "notcontains") && multi) then
                    if isEVList value then value else EE.vList [value]
                  else value
                let expr ←
                  if op = "missing" || op = "exists" then
                    .ok (EE.fieldOnly op cn preventExpand)
                  else if op = "range" then
                    if tok ≠ "range" then
                      .ok (EE.rangeOne cn tok value preventExpand)
                    else
                      match value with
                      | .vList (a :: b :: _) =>
                          .ok (EE.rangeBetween cn a b preventExpand)
                      | _ => .error .indexError
                  else if op = "wildcard" then
                    if tok = "contains" || tok = "notcontains" then
                      if multi then .ok (EE.opE "terms" cn value preventExpand)
                      else
                        match value with
                        | .vS s =>
                            .ok (EE.opE "wildcard" cn (.vS ("*" ++ s ++ "*"))
                                  preventExpand)
                        | _ => .error .typeError
                    else
                      match value with
                      | .vS s =>
                          .ok (EE.opE "wildcard" cn (.vS ("*" ++ s)) preventExpand)
                      | _ => .error .typeError
                  else .ok (EE.opE op cn value preventExpand)
                let expr :=
                  if startsWithNot tok then EE.boolOne "must_not" expr else expr
                .ok (some (wrapNested st.nestedName expr))
        | none =>
            let st :=
              if st.accumulated ≠ "" then
                match lookupStr st.mapping st.accumulated with
                | some (.nestedF tq sub) =>
                    { st with nestedName := some st.accumulated,
                              mapping := sub, hasTQ := tq, accumulated := "" }
                | _ => st
              else st
            let acc :=
              if st.accumulated = "" then tok
              else st.accumulated ++ "__" ++ tok
            let st := { st with accumulated := acc }
            let st :=
              match lookupStr st.mapping acc with
              | some (EFieldT.plain m r) =>
                  let cn :=
                    (match st.nestedName with
                     | some nn => nn ++ "."
                     | none => "") ++ acc
                  let cn := if preferRaw && r then cn ++ ".raw" else cn
                  { st with bound := some (cn, EFieldT.plain m r) }
              | _ => st
            esGo tokens value dflt preventExpand preferRaw rest st

/-- `ElasticSearchMixin._parse_tokens`. -/
def esParseTokens (root : EDocInfo) (tokens : List String) (value : EE)
    (dflt : EDflt) (preventExpand preferRaw : Bool) : Except Err (Option EE) :=
  esGo tokens value dflt preventExpand preferRaw tokens
    ⟨none, none, "", root.mapping, root.hasTQ⟩

/-- Dots in a nesting path (Python `path.count('.')`). -/
def dotCount (s : String) : Nat := s.data.count '.'

/-- First pass of the `_group_nested` while body: the first nested part's
path, replaced only by a strictly higher dot count. -/
def esLongestPath (l : List EE) : Option String :=
  l.foldl
    (fun acc part =>
      match part with
      | .nestedQ p _ =>
          match acc with
          | none => some p
          | some q => if dotCount p > dotCount q then some p else acc
      | _ => acc)
    none

/-- One iteration of the `_group_nested` while loop: pick the longest
nested path, split the parts into that path's group and the rest, and merge
the group when it has at least two members; `none` means the loop breaks
(no nested part at all, or the selected group has at most one member). -/
def esGroupStep (l : List EE) (op : String) : Option (List EE) :=
  match esLongestPath l with
  | none => none
  | some lp =>
      let group := l.filterMap
        (fun part =>
          match part with
          | .nestedQ p q => if p = lp then some q else none
          | _ => none)
      let newParts := l.filter
        (fun part =>
          match part with
          | .nestedQ p _ => decide (p ≠ lp)
          | _ => true)
      if group.length ≤ 1 then none
      else some (newParts ++ [.nestedQ lp (.boolMany op group)])

/-- Iterated `_group_nested` while loop (each continuing iteration strictly
shrinks the list, so list-length fuel suffices). -/
def esGroupGo : Nat → List EE → String → List EE
  | 0, l, _ => l
  | fuel + 1, l, op =>
      match esGroupStep l op with
      | none => l
      | some l2 => esGroupGo fuel l2 op

/-- `ElasticSearchMixin._group_nested`. -/
def esGroupNested (l : List EE) (op : String) : List EE :=
  esGroupGo (l.length + 1) l op

/-- Combination step shared by the Elasticsearch
`_build_filter_expressions` and `_parse_logical_op` (lines 121-127 and
176-182): with more than one child the children are first grouped by nested
path, then joined in a `bool` clause; a single child is returned as is
(wrapped for `must_not`); no child gives `None`. -/
def esCombine (op : String) (es : List EE) : Option EE :=
  let es := if es.length > 1 then esGroupNested es op else es
  match es with
  | [] => none
  | [e] => some (if op = "must_not" then .boolOne "must_not" e else e)
  | es => some (.boolMany op es)

/-- `ElasticSearchMixin._logical_operators`. -/
def esLogicalOf (s : String) : Option String :=
  if s = "or" then some "should"
  else if s = "and" then some "must"
  else if s = "not" then some "must_not"
  else none

/-- Work items of the fused Elasticsearch condition-tree recursion
(mirroring `CondWork`). -/
inductive ECondWork where
  | conds (l : List (String × EE))
  | condList (arg : String) (l : List EE)

/-- Fused recursion of the Elasticsearch `_build_filter_expressions` and
`_parse_logical_op`, collecting the non-`None` child expressions of one
level. -/
def esCollect (root : EDocInfo) (preventExpand : Bool) :
    Nat → ECondWork → Except Err (List EE)
  | 0, _ => .error .fuelOut
  | _ + 1, .conds [] => .ok []
  | fuel + 1, .conds ((arg, value) :: rest) => do
      let e? ←
        match esLogicalOf arg with
        | some op =>
            (match value with
             | .vDict c => do
                 let es ← esCollect root preventExpand fuel (.conds c)
                 .ok (esCombine op es)
             | .vList l => do
                 let es ← esCollect root preventExpand fuel (.condList arg l)
                 .ok (esCombine op es)
             | _ => .error (.invalidFilterAttr arg))
        | none =>
            esParseTokens root (splitTokens arg) value .termD preventExpand false
      let es ← esCollect root preventExpand fuel (.conds rest)
      .ok (match e? with
           | some e => e :: es
           | none => es)
  | _ + 1, .condList _ [] => .ok []
  | fuel + 1, .condList arg (x :: rest) =>
      match x with
      | .vDict sc => do
          let es1 ← esCollect root preventExpand fuel (.conds sc)
          let es ← esCollect root preventExpand fuel (.condList arg rest)
          .ok (match esCombine "must" es1 with
               | some e => e :: es
               | none => es)
      | _ => .error (.invalidFilterAttr arg)

/-- `ElasticSearchMixin._build_filter_expressions` (`default_op = None`
defaults to `'must'`). -/
def esBuildFilterExpressions (root : EDocInfo) (fuel : Nat)
    (conds : List (String × EE)) (dop : Option String)
    (preventExpand : Bool) : Except Err (Option EE) := do
  let es ← esCollect root preventExpand fuel (.conds conds)
  .ok (esCombine (dop.getD "must") es)

/-! Pagination slicing (`base.py` `BaseCollectionResource.get_object_list`
and `sqlalchemy.py` `CollectionResource.get_object_list`). -/

/-- The slice a `get_object_list` call requests: the starting offset and
the number of rows, `none` when no row bound is applied. -/
structure Slice where
  off : Int
  rows : Option Int
deriving DecidableEq

/-- `BaseCollectionResource.get_object_list`: `limit` defaults to
`max_limit`; `offset` defaults to `0`, otherwise is clamped with
`max(offset, 0)`; a non-`None` limit is capped by `max_limit` and clamped
with `max(limit, 0)` and the slice `queryset[offset : limit + offset]`
requests `limit` rows; with no limit the slice is `queryset[offset:]`. -/
def baseGetObjectList (maxLimit limit offset : Option Int) : Slice :=
  let limit := match limit with
               | none => maxLimit
               | some l => some l
  let off : Int := match offset with
                   | none => 0
                   | some o => max o 0
  match limit with
  | some l =>
      let l := match maxLimit with
               | some m => min l m
               | none => l
      let l := max l 0
      ⟨off, some l⟩
  | none => ⟨off, none⟩

/-- `CollectionResource.get_object_list` (SQLAlchemy): the same clamping,
applied through `queryset.limit(limit)` and `queryset.offset(max(offset,
0))`. -/
def sqlaGetObjectList (maxLimit limit offset : Option Int) : Slice :=
  let limit := match limit with
               | none => maxLimit
               | some l => some l
  let off0 : Int := match offset with
                    | none => 0
                    | some o => o
  match limit with
  | some l =>
      let l := match maxLimit with
               | some m => min l m
               | none => l
      let l := max l 0
      ⟨max off0 0, some l⟩
  | none => ⟨max off0 0, none⟩

/-! Totals builders (`CollectionResource._build_total_expressions` on both
backends). -/

/-- Python `if not isinstance(columns, list): columns = [columns]`. -/
def listifySqlE (v : SqlE) : List SqlE :=
  match v with
  | .vList l => l
  | c => [c]

/-- Python `if not isinstance(columns, list): columns = [columns]`
(document backend). -/
def listifyEE (v : EE) : List EE :=
  match v with
  | .vList l => l
  | c => [c]

/-- Python truthiness of an embedded relational value (`if not columns:`). -/
def truthySqlE : SqlE → Bool
  | .vNull => false
  | .vI n => n ≠ 0
  | .vB b => b
  | .vS s => s ≠ ""
  | .vList l => !l.isEmpty
  | .vDict d => !d.isEmpty
  | _ => true

/-- Python `isinstance(columns, int)` (`bool` is a subclass of `int`). -/
def isIntSqlE : SqlE → Bool
  | .vI _ => true
  | .vB _ => true
  | _ => false

/-- Association-list assignment (Python dict item assignment: replace in
place, otherwise append). -/
def updateAssoc {α : Type} : List (String × α) → String → α → List (String × α)
  | [], k, v => [(k, v)]
  | (k1, v1) :: rest, k, v =>
      if k1 = k then (k1, v) :: rest
      else (k1, v1) :: updateAssoc rest k v

/-- Accumulator of the SQLAlchemy `_build_total_expressions` loop:
`group_limit`, the `group_cols` ordered dict, the `group_by` list, the
aggregate expressions and the shared relationships registry. -/
structure TotalsAcc where
  groupLimit : Option SqlE
  groupCols : List (String × SqlE)
  groupBy : List SqlE
  aggregates : List SqlE
  reg : Registry

/-- Column loop of the SQLAlchemy totals builder: each column string is
split and parsed with the bare-column default (a non-string column raises
`AttributeError` at `column.split`); a `None` expression is skipped;
`group_by` expressions go to `group_cols`/`group_by`, anything else becomes
`Function(aggregate, expression)`. -/
def sqlaTotalsCols (S : SqlSchema) (ig : Bool) (root : Nat)
    (aggregate : String) :
    List SqlE → TotalsAcc → Except Err TotalsAcc
  | [], acc => .ok acc
  | c :: rest, acc => do
      let s ← match c with
              | .vS s => (.ok s : Except Err String)
              | _ => .error .typeError
      let (e?, reg2) ←
        sqlaParseTokens S ig root (splitTokens s) .vNull acc.reg .colD
      let acc := { acc with reg := reg2 }
      let acc :=
        match e? with
        | none => acc
        | some e =>
            if aggregate = "group_by" then
              { acc with groupCols := updateAssoc acc.groupCols s e,
                         groupBy := acc.groupBy ++ [e] }
            else
              { acc with aggregates := acc.aggregates ++ [.fnApp aggregate e] }
      sqlaTotalsCols S ig root aggregate rest acc

/-- Pair loop of the SQLAlchemy totals builder (`sqlalchemy.py` lines
960-985): `group_limit` requires an int value; falsy columns are an error
for `group_by` and an aggregate over the primary key otherwise (a composite
key through `func.row`); truthy columns are listified and resolved. -/
def sqlaTotalsPairs (S : SqlSchema) (ig : Bool) (root : Nat) :
    List (String × SqlE) → TotalsAcc → Except Err TotalsAcc
  | [], acc => .ok acc
  | (aggregate, columns) :: rest, acc =>
      if aggregate = "group_limit" then
        if !isIntSqlE columns then .error .groupLimitNotInt
        else sqlaTotalsPairs S ig root rest { acc with groupLimit := some columns }
      else if !truthySqlE columns then
        if aggregate = "group_by" then .error .groupByNoColumns
        else
          let pks := (S root).pk
          let e :=
            if pks.length > 1 then
              SqlE.fnApp aggregate (.rowF (pks.map (fun p => SqlE.colref (.cls root) p)))
            else
              match pks with
              | [p] => SqlE.fnApp aggregate (.colref (.cls root) p)
              | _ => SqlE.fnApp0 aggregate
          sqlaTotalsPairs S ig root rest
            { acc with aggregates := acc.aggregates ++ [e] }
      else do
        let acc ← sqlaTotalsCols S ig root aggregate (listifySqlE columns) acc
        sqlaTotalsPairs S ig root rest acc

/-- Outer loop over the totals list. -/
def sqlaTotalsDicts (S : SqlSchema) (ig : Bool) (root : Nat) :
    List (List (String × SqlE)) → TotalsAcc → Except Err TotalsAcc
  | [], acc => .ok acc
  | d :: rest, acc => do
      let acc ← sqlaTotalsPairs S ig root d acc
      sqlaTotalsDicts S ig root rest acc

/-- Result of the SQLAlchemy totals builder: the collected accumulator and
the joins `_apply_joins` materializes (`distinct=False`).  The final SQL
statement assembly (`with_only_columns`, the positional ORDER BY string and
the `row_number` window with its outer SELECT) is beyond the validation and
collection behavior the claims are about and is not modeled. -/
structure SqlaTotalsResult where
  acc : TotalsAcc
  joins : List (List (Nat × String) × Bool)

/-- `CollectionResource._build_total_expressions` (SQLAlchemy), up to and
including join materialization. -/
def sqlaBuildTotalExpressions (S : SqlSchema) (ig : Bool) (root : Nat)
    (totals : List (List (String × SqlE))) : Except Err SqlaTotalsResult := do
  let acc0 : TotalsAcc := ⟨none, [], [], [], ⟨[], 0, []⟩⟩
  let acc ← sqlaTotalsDicts S ig root totals acc0
  .ok ⟨acc, longestChains acc.reg.joinChains⟩

/-- Python truthiness of an embedded document value. -/
def truthyEE : EE → Bool
  | .vNull => false
  | .vI n => n ≠ 0
  | .vB b => b
  | .vS s => s ≠ ""
  | .vList l => !l.isEmpty
  | .vDict d => !d.isEmpty
  | _ => true

/-- Python `isinstance(columns, int)` on a document value. -/
def isIntEE : EE → Bool
  | .vI _ => true
  | .vB _ => true
  | _ => false

/-- Integer value of an embedded document value known to be an int. -/
def intOfEE : EE → Int
  | .vI n => n
  | .vB b => if b then 1 else 0
  | _ => 0

/-- Aggregation nodes of the Elasticsearch totals builder: `termsA` is
`{'terms': {'field': f, 'size': n}}` (with the descending `order` keys
added by `_nest_aggregates`), `filterA` is `{'filter': expr}`, `nestedA` is
`{'nested': {'path': p}}`, `metricA` is `{name: {'field': f}}`, and
`withSubs` attaches an `'aggs'` sub-dict to a node. -/
inductive EAggNode where
  | termsA (field : EE) (size : Int) (orderKeys : List String)
  | filterA (e : EE)
  | nestedA (path : String)
  | metricA (name : String) (field : EE)
  | withSubs (node : EAggNode) (subs : List (String × EAggNode))

/-- One step of `CollectionResource._nest_aggregates` (Elasticsearch): if
aggregates were already collected, a `terms` group gets their keys as
descending order and the aggregates become its `aggs`; the group then
replaces the aggregates dict. -/
def esNestStep (aggs : List (String × EAggNode)) (p : String × EAggNode) :
    List (String × EAggNode) :=
  if aggs.isEmpty then [p]
  else
    let node :=
      match p.2 with
      | .termsA f s _ => EAggNode.termsA f s (aggs.map (·.1))
      | n => n
    [(p.1, .withSubs node aggs)]

/-- `CollectionResource._nest_aggregates` (Elasticsearch): folds the
`group_by` entries in reverse. -/
def esNestAggregates (aggregates : List (String × EAggNode))
    (groupBy : List (String × EAggNode)) : List (String × EAggNode) :=
  groupBy.reverse.foldl esNestStep aggregates

/-- First pass of the Elasticsearch totals builder: find `group_limit`
(the per-dict loop breaks after the first `group_limit` key), requiring an
int value. -/
def esPass1Dicts : List (List (String × EE)) → Int → Except Err Int
  | [], gl => .ok gl
  | d :: rest, gl =>
      match lookupStr d "group_limit" with
      | none => esPass1Dicts rest gl
      | some v =>
          if isIntEE v then esPass1Dicts rest (intOfEE v)
          else .error .groupLimitNotInt

/-- Nested-path unwrap shared by the Elasticsearch totals passes: a
`{'nested': ...}` expression registers its path (when not already seen as a
nested group) and is replaced by its inner query. -/
def esUnwrapNested (seen : List String) (expr : EE) :
    Option String × EE :=
  match expr with
  | .nestedQ path q => if path ∈ seen then (none, q) else (some path, q)
  | e => (none, e)

/-- Column loop of the Elasticsearch `group_by` pass: a dict column builds
a filter expression (with `prevent_expand=False`), a string column resolves
with `prefer_raw=True`; `None` results are skipped; nested expressions
register a `('nested', ...)` group once per path; dict columns append a
`('filtered', ...)` group and string columns a `terms` group sized by
`group_limit`. -/
def esPass2Cols (root : EDocInfo) (fuel : Nat) (gl : Int) :
    List EE → List String × List (String × EAggNode) →
    Except Err (List String × List (String × EAggNode))
  | [], st => .ok st
  | column :: rest, (nestedGroups, groupBy) => do
      match column with
      | .vDict c => do
          let e? ← esBuildFilterExpressions root fuel c (some "must") false
          match e? with
          | none => esPass2Cols root fuel gl rest (nestedGroups, groupBy)
          | some expr =>
              let (new?, expr) := esUnwrapNested nestedGroups expr
              let (nestedGroups, groupBy) :=
                match new? with
                | some path =>
                    (nestedGroups ++ [path], groupBy ++ [("nested", EAggNode.nestedA path)])
                | none => (nestedGroups, groupBy)
              esPass2Cols root fuel gl rest
                (nestedGroups, groupBy ++ [("filtered", EAggNode.filterA expr)])
      | .vS s => do
          let e? ← esParseTokens root (splitTokens s) .vNull .nameD true true
          match e? with
          | none => esPass2Cols root fuel gl rest (nestedGroups, groupBy)
          | some expr =>
              let (new?, expr) := esUnwrapNested nestedGroups expr
              let (nestedGroups, groupBy) :=
                match new? with
                | some path =>
                    (nestedGroups ++ [path], groupBy ++ [("nested", EAggNode.nestedA path)])
                | none => (nestedGroups, groupBy)
              esPass2Cols root fuel gl rest
                (nestedGroups, groupBy ++ [(s, EAggNode.termsA expr gl [])])
      | _ => .error .typeError

/-- Second pass of the Elasticsearch totals builder: per totals dict, the
first `group_by` key (the loop breaks afterwards) must have truthy columns,
which are listified and resolved into group dimensions. -/
def esPass2Dicts (root : EDocInfo) (fuel : Nat) (gl : Int) :
    List (List (String × EE)) → List String × List (String × EAggNode) →
    Except Err (List String × List (String × EAggNode))
  | [], st => .ok st
  | d :: rest, st => do
      let st ←
        match lookupStr d "group_by" with
        | none => .ok st
        | some columns =>
            if !truthyEE columns then .error .groupByNoColumns
            else esPass2Cols root fuel gl (listifyEE columns) st
      esPass2Dicts root fuel gl rest st

/-- Column loop of the Elasticsearch plain-aggregates pass: nested paths
not already grouped are collected into `nested_aggs`, the aggregate is
stored under its name, and pending `nested_aggs` immediately wrap the
aggregates dict. -/
def esPass3Cols (root : EDocInfo) (fuel : Nat) (nestedGroups : List String)
    (aggregate : String) :
    List EE →
    List (String × EAggNode) × List (String × EAggNode) →
    Except Err (List (String × EAggNode) × List (String × EAggNode))
  | [], st => .ok st
  | column :: rest, (aggregates, nestedAggs) => do
      let e? ←
        match column with
        | .vDict c => esBuildFilterExpressions root fuel c (some "must") false
        | .vS s => esParseTokens root (splitTokens s) .vNull .nameD true true
        | _ => (.error .typeError : Except Err (Option EE))
      match e? with
      | none => esPass3Cols root fuel nestedGroups aggregate rest (aggregates, nestedAggs)
      | some expr =>
          let (new?, expr) := esUnwrapNested nestedGroups expr
          let nestedAggs :=
            match new? with
            | some path => updateAssoc nestedAggs path (.nestedA path)
            | none => nestedAggs
          let aggregates := updateAssoc aggregates aggregate (.metricA aggregate expr)
          let (aggregates, nestedAggs) :=
            if !nestedAggs.isEmpty then
              (esNestAggregates aggregates (nestedAggs.map (fun p => ("nested", p.2))), [])
            else (aggregates, nestedAggs)
          esPass3Cols root fuel nestedGroups aggregate rest (aggregates, nestedAggs)

/-- Pair loop of the Elasticsearch plain-aggregates pass: `count`,
`group_limit` and `group_by` are skipped; falsy columns aggregate over the
`id` field; truthy columns are listified and resolved. -/
def esPass3Pairs (root : EDocInfo) (fuel : Nat) (nestedGroups : List String) :
    List (String × EE) →
    List (String × EAggNode) × List (String × EAggNode) →
    Except Err (List (String × EAggNode) × List (String × EAggNode))
  | [], st => .ok st
  | (aggregate, columns) :: rest, (aggregates, nestedAggs) =>
      if aggregate = "count" || aggregate = "group_limit" || aggregate = "group_by" then
        esPass3Pairs root fuel nestedGroups rest (aggregates, nestedAggs)
      else if !truthyEE columns then
        esPass3Pairs root fuel nestedGroups rest
          (updateAssoc aggregates aggregate (.metricA aggregate (.vS "id")), nestedAggs)
      else do
        let st ← esPass3Cols root fuel nestedGroups aggregate (listifyEE columns)
                   (aggregates, nestedAggs)
        esPass3Pairs root fuel nestedGroups rest st

/-- Outer loop of the Elasticsearch plain-aggregates pass. -/
def esPass3Dicts (root : EDocInfo) (fuel : Nat) (nestedGroups : List String) :
    List (List (String × EE)) →
    List (String × EAggNode) × List (String × EAggNode) →
    Except Err (List (String × EAggNode) × List (String × EAggNode))
  | [], st => .ok st
  | d :: rest, st => do
      let st ← esPass3Pairs root fuel nestedGroups d st
      esPass3Dicts root fuel nestedGroups rest st

/-- Result of the Elasticsearch totals builder: the final aggregation dict
and whether it was attached to the query (`if aggregates:`). -/
structure EsTotalsResult where
  aggs : List (String × EAggNode)
  applied : Bool

/-- `CollectionResource._build_total_expressions` (Elasticsearch): find
`group_limit` first, then the groups, then the plain aggregates, and nest
the aggregates under the groups.  `fuel` bounds the filter compilation of
dict-valued columns. -/
def esBuildTotalExpressions (root : EDocInfo) (fuel : Nat)
    (totals : List (List (String × EE))) : Except Err EsTotalsResult := do
  let gl ← esPass1Dicts totals 0
  let (nestedGroups, groupBy) ← esPass2Dicts root fuel gl totals ([], [])
  let (aggregates, _) ← esPass3Dicts root fuel nestedGroups totals ([], [])
  let aggregates := esNestAggregates aggregates groupBy
  .ok ⟨aggregates, !aggregates.isEmpty⟩


/-! Fixtures used by concrete counterexamples and witnesses. -/

/-- Example relational schema: entity 0 has columns `name` (string), `id`
(integer) and a column literally named `a__b`, and relationships `rel` (to
entity 1) and `a` (to entity 3); entity 1 has column `f` and relationship
`sub` (to entity 2); entity 2 has column `g`; entity 3 has column `b`. -/
def exSchema : SqlSchema := fun n =>
  match n with
  | 0 => ⟨[("name", .other), ("id", .integer), ("a__b", .other)],
          [("rel", 1), ("a", 3)], ["id"], false⟩
  | 1 => ⟨[("f", .other)], [("sub", 2)], ["id"], false⟩
  | 2 => ⟨[("g", .other)], [], ["id"], false⟩
  | _ => ⟨[("b", .other)], [], ["id"], false⟩

/-- Example document mapping: plain fields `id`, `name` and a plain field
literally named `a__b`; nested field `a` (sub-fields `b`, `x`) and nested
field `b` (sub-fields `y`, `z`). -/
def exDoc : EDocInfo :=
  ⟨[("id", .plain false false), ("name", .plain false false),
    ("a", .nestedF false [("b", .plain false false), ("x", .plain false false)]),
    ("b", .nestedF false [("y", .plain false false), ("z", .plain false false)]),
    ("a__b", .plain false false)], false⟩

/-- Empty request-scoped registry. -/
def regEmpty : Registry := ⟨[], 0, []⟩

/-- C2: evaluation of `_group_nested` (and of the filter builder through
it) at a failing input.  The claim says grouping repeats until no nesting
path has more than one sibling clause; but the while loop breaks as soon as
the path with the highest dot count has a group of at most one member, so
the two sibling `nested` clauses with path `b` are left unmerged, both at
the `_group_nested` level and in the compiled filter for
`{"a__x": 1, "b__y": 2, "b__z": 3}`. -/
theorem c2_group_nested_bug :
    (esGroupNested
       [.nestedQ "a" (.opE "term" "a.x" (.vI 1) true),
        .nestedQ "b" (.opE "term" "b.y" (.vI 2) true),
        .nestedQ "b" (.opE "term" "b.z" (.vI 3) true)] "must"
     = [.nestedQ "a" (.opE "term" "a.x" (.vI 1) true),
        .nestedQ "b" (.opE "term" "b.y" (.vI 2) true),
        .nestedQ "b" (.opE "term" "b.z" (.vI 3) true)])
    ∧ (esBuildFilterExpressions exDoc 9
         [("a__x", .vI 1), ("b__y", .vI 2), ("b__z", .vI 3)] none true
       = .ok (some (.boolMany "must"
           [.nestedQ "a" (.opE "term" "a.x" (.vI 1) true),
            .nestedQ "b" (.opE "term" "b.y" (.vI 2) true),
            .nestedQ "b" (.opE "term" "b.z" (.vI 3) true)]))) :=
  ⟨rfl, rfl⟩

/-- C1 counterexample: compiling `{"rel__f__isnull": true, "rel__sub__g": 5}`
registers the chain `["rel"]` with the outer flag (the isnull branch) and
the chain `["rel", "sub"]` without it; `["rel"]` is a strict subset of
`["rel", "sub"]`, so only the longer chain is materialized — but it is
materialized as an inner join: the dropped subset chain's outer-join
requirement is not carried to the surviving chain, contradicting the
claim. -/
theorem c1_counterexample :
    (buildFilterExpressions exSchema false 0 9
       [("rel__f__isnull", .vB true), ("rel__sub__g", .vI 5)] none regEmpty
     = .ok (some (.conj [.app .isnullOp (.colref (.alias 0) "f") (.vB true),
                         .app .eqOp (.colref (.alias 1) "g") (.vI 5)]),
            ⟨[("sub", 1), ("rel", 0)], 2,
             [⟨["rel"], [(0, "rel")], true⟩,
              ⟨["rel", "sub"], [(0, "rel"), (1, "sub")], false⟩]⟩))
    ∧ (longestChains
         [⟨["rel"], [(0, "rel")], true⟩,
          ⟨["rel", "sub"], [(0, "rel"), (1, "sub")], false⟩]
       = [([(0, "rel"), (1, "sub")], false)])
    ∧ (filterOrExclude exSchema false 0 9
         [("rel__f__isnull", .vB true), ("rel__sub__g", .vI 5)] none none
       = .ok ⟨[([(0, "rel"), (1, "sub")], false)], true,
              some (.conj [.app .isnullOp (.colref (.alias 0) "f") (.vB true),
                           .app .eqOp (.colref (.alias 1) "g") (.vI 5)]), []⟩)
    ∧ (["rel"] ≠ ["rel", "sub"] ∧ tokensSubset ["rel"] ["rel", "sub"]) :=
  ⟨rfl, rfl, rfl, by decide, by decide⟩

/-- C3 counterexample: with a nested relation `a` (sub-field `b`) and a
field literally named `a__b` in the same mapping, the token path
`a__b` resolves through the relation to the nested column `a.b`, not to the
field `a__b`: the hop is committed before the longer accumulated name is
inspected.  On the relational backend, with relationship `a` and a root
column named `a__b`, the same path likewise resolves through the join to
the target's column `b`. -/
theorem c3_counterexample :
    (esParseTokens exDoc ["a", "b"] (.vS "x") .termD true false
     = .ok (some (.nestedQ "a" (.opE "term" "a.b" (.vS "x") true))))
    ∧ (esParseTokens exDoc ["a", "b"] (.vS "x") .termD true false
       ≠ .ok (some (.opE "term" "a__b" (.vS "x") true)))
    ∧ (sqlaParseTokens exSchema false 0 ["a", "b"] (.vS "x") regEmpty .eqD
       = .ok (some (.app .eqOp (.colref (.alias 0) "b") (.vS "x")),
              ⟨[("a", 0)], 1, [⟨["a"], [(0, "a")], false⟩]⟩)) :=
  ⟨rfl, by
    have e1 : esParseTokens exDoc ["a", "b"] (.vS "x") .termD true false
        = .ok (some (.nestedQ "a" (.opE "term" "a.b" (.vS "x") true))) := rfl
    rw [e1]
    simp, rfl⟩

/-- C4 counterexample: on the relational backend the `notin` operator does
not coerce a bare scalar into a one-element list (the coercion applies only
to `between_op` and `in_op`), so `{"name__notin": "x"}` and
`{"name__notin": ["x"]}` compile to different expression trees. -/
theorem c4_counterexample :
    (buildFilterExpressions exSchema false 0 9
       [("name__notin", .vS "x")] none regEmpty
     = .ok (some (.app .notinOp (.colref (.cls 0) "name") (.vS "x")), regEmpty))
    ∧ (buildFilterExpressions exSchema false 0 9
         [("name__notin", .vList [.vS "x"])] none regEmpty
       = .ok (some (.app .notinOp (.colref (.cls 0) "name") (.vList [.vS "x"])),
              regEmpty))
    ∧ (SqlE.app .notinOp (.colref (.cls 0) "name") (.vS "x")
       ≠ SqlE.app .notinOp (.colref (.cls 0) "name") (.vList [.vS "x"])) :=
  ⟨rfl, rfl, by simp⟩

/-- C5 counterexample: with no filter conditions and an order criterion
through the relationship `rel`, a join is materialized but the query is not
marked DISTINCT, contradicting the claimed equivalence between joins and
DISTINCT. -/
theorem c5_counterexample :
    (filterOrExclude exSchema false 0 9 [] none (some [.plain "rel__f"])
     = .ok ⟨[([(0, "rel")], false)], false, none, [.colref (.alias 0) "f"]⟩)
    ∧ ([([(0, "rel")], false)] ≠ ([] : List (List (Nat × String) × Bool))) :=
  ⟨rfl, by decide⟩

/-- C8 counterexample: the filter key `rel` names a relationship and never
resolves to a field, yet the relational backend raises no error: the parse
returns no expression and silently registers a join chain. -/
theorem c8_counterexample :
    buildFilterExpressions exSchema false 0 9 [("rel", .vI 5)] none regEmpty
    = .ok (none, ⟨[("rel", 0)], 1, [⟨["rel"], [(0, "rel")], false⟩]⟩) := rfl


/-- C10: for every `max_limit`, `limit` and `offset` argument (including
`None` and negatives), both `get_object_list` implementations request the
same slice; the effective offset is `max(offset, 0)` (`0` when `offset` is
`None`) and never negative; a `None` limit falls back to the configured
`max_limit` (clamped at zero); a requested row count is never negative and,
when a non-negative `max_limit` is configured, never exceeds it. -/
theorem c10_theorem (m l o : Option Int) :
    baseGetObjectList m l o = sqlaGetObjectList m l o
    ∧ (baseGetObjectList m l o).off = max (o.getD 0) 0
    ∧ 0 ≤ (baseGetObjectList m l o).off
    ∧ (l = none → (baseGetObjectList m l o).rows = m.map (fun x => max x 0))
    ∧ (∀ r, (baseGetObjectList m l o).rows = some r → 0 ≤ r)
    ∧ (∀ r mm, (baseGetObjectList m l o).rows = some r → m = some mm →
         0 ≤ mm → r ≤ mm) := by
  unfold baseGetObjectList sqlaGetObjectList
  rcases m with _ | mm <;> rcases l with _ | ll <;> rcases o with _ | oo <;>
    simp

/-- Witness for C10 at `max_limit = 10`, `limit = None`, `offset = -5`. -/
theorem c10_witness :
    baseGetObjectList (some 10) none (some (-5))
      = sqlaGetObjectList (some 10) none (some (-5))
    ∧ (baseGetObjectList (some 10) none (some (-5))).rows
      = (some (10 : Int)).map (fun x => max x 0) :=
  ⟨(c10_theorem (some 10) none (some (-5))).1,
   (c10_theorem (some 10) none (some (-5))).2.2.2.1 rfl⟩

/-- C6: for every conditions mapping `C`, every fuel and every registry,
compiling `{"not": {"and": C}}` (the `exclude_by` filter) produces exactly
the negation of the expression produced by compiling `{"and": C}` (`None`
stays `None`, errors agree, and the registry is threaded identically). -/
theorem c6_theorem (S : SqlSchema) (ig : Bool) (root : Nat) (f : Nat)
    (C : Conditions) (reg : Registry) :
    buildFilterExpressions S ig root (f + 3)
      [("not", .vDict [("and", .vDict C)])] none reg
    = (buildFilterExpressions S ig root (f + 2)
        [("and", .vDict C)] none reg).map
        (fun p => (p.1.map .neg, p.2)) := by
  cases h : sqlaCollect S ig root (f + 1) (.conds C) reg with
  | error e =>
      simp [buildFilterExpressions, sqlaCollect, logOpOf, h, Except.map,
            bind, Except.bind]
  | ok p =>
      obtain ⟨es, r⟩ := p
      rcases es with _ | ⟨e1, _ | ⟨e2, tl⟩⟩ <;>
        simp [buildFilterExpressions, sqlaCollect, logOpOf, combineWith, h,
              Except.map, bind, Except.bind]

/-- Distinct flag of `_apply_joins` on a fresh query: set iff a longest
chain exists and the `distinct` argument is true; the joins are exactly the
longest chains. -/
theorem applyJoins_empty_spec (reg : Registry) (d : Bool) :
    ((applyJoins emptyQuery reg d).distinct = true ↔
      ((applyJoins emptyQuery reg d).joins ≠ [] ∧ d = true))
    ∧ (applyJoins emptyQuery reg d).filter = none := by
  unfold applyJoins emptyQuery
  by_cases hlc : (longestChains reg.joinChains).isEmpty <;>
    simp_all [List.isEmpty_iff]

/-- C5 amended: the query is marked DISTINCT iff at least one join chain
was materialized and the filter conditions produced an expression; joins
coming only from order criteria do not mark the query DISTINCT. -/
theorem c5_theorem (S : SqlSchema) (ig : Bool) (root fuel : Nat)
    (conds : Conditions) (dop : Option LogOp) (oc : Option (List OrderArg))
    (q : QueryState) :
    filterOrExclude S ig root fuel conds dop oc = .ok q →
    (q.distinct = true ↔ q.joins ≠ [] ∧ q.filter.isSome) := by
  intro h
  simp only [filterOrExclude] at h
  cases h1 : buildFilterExpressions S ig root fuel conds dop ⟨[], 0, []⟩ with
  | error e => rw [h1] at h; exact Except.noConfusion h
  | ok p =>
      obtain ⟨e?, reg1⟩ := p
      rw [h1] at h
      simp only [bind, Except.bind] at h
      cases ho : hasOrder oc with
      | false =>
          rw [ho] at h
          simp only [Bool.false_eq_true, if_false] at h
          simp only [bind, Except.bind, Except.ok.injEq] at h
          subst h
          have hs := applyJoins_empty_spec reg1 e?.isSome
          cases e? <;> simp_all
      | true =>
          rw [ho] at h
          simp only [if_true] at h
          cases h2 : buildOrderExpressions S ig root (oc.getD []) reg1 with
          | error e => rw [h2] at h; exact Except.noConfusion h
          | ok p2 =>
              obtain ⟨oes, reg2⟩ := p2
              rw [h2] at h
              simp only [bind, Except.bind, Except.ok.injEq] at h
              subst h
              have hs := applyJoins_empty_spec reg2 e?.isSome
              cases e? <;> simp_all

/-- C5 witness: the amended DISTINCT equivalence at the compiled example
`{"rel__f": 1}`. -/
theorem c5_witness :
    ((⟨[([(0, "rel")], false)], true,
       some (.app .eqOp (.colref (.alias 0) "f") (.vI 1)), []⟩ : QueryState).distinct
       = true
     ↔ (⟨[([(0, "rel")], false)], true,
         some (.app .eqOp (.colref (.alias 0) "f") (.vI 1)), []⟩ : QueryState).joins ≠ []
       ∧ (⟨[([(0, "rel")], false)], true,
           some (.app .eqOp (.colref (.alias 0) "f") (.vI 1)), []⟩ : QueryState).filter.isSome) :=
  c5_theorem exSchema false 0 9 [("rel__f", .vI 1)] none none _ rfl


/-- Value deserialization at an operator token coincides with plain column
deserialization on non-list values. -/
theorem sqlaDeserializeValue_notList (ct : ColType) (v : SqlE)
    (h : isVList v = false) :
    sqlaDeserializeValue ct v = deserializeColumn ct v := by
  cases v <;> simp_all [isVList, sqlaDeserializeValue]

/-- C7: compiling `{"f": v}` (bare field key) and `{"f__exact": v}`
produce identical expression trees for every field `f` of the entity and
every non-list value `v`, on both backends (on the relational backend both
paths deserialize `v` through the column and apply `operators.eq`; on the
document backend both produce the same `term` clause). -/
theorem c7_theorem :
    (∀ (S : SqlSchema) (ig : Bool) (root f : Nat) (k1 k2 fld : String)
       (ct : ColType) (v : SqlE) (reg : Registry),
      splitTokens k1 = [fld] →
      splitTokens k2 = [fld, "exact"] →
      logOpOf k1 = none → logOpOf k2 = none →
      fld ≠ "q" →
      lookupStr (S root).rels fld = none →
      lookupStr (S root).columns fld = some ct →
      isVList v = false →
      buildFilterExpressions S ig root (f + 2) [(k1, v)] none reg
        = buildFilterExpressions S ig root (f + 2) [(k2, v)] none reg)
    ∧ (∀ (root : EDocInfo) (k1 k2 fld : String) (m r : Bool) (v : EE)
         (f : Nat) (pe : Bool),
      splitTokens k1 = [fld] →
      splitTokens k2 = [fld, "exact"] →
      esLogicalOf k1 = none → esLogicalOf k2 = none →
      fld ≠ "q" →
      lookupStr root.mapping fld = some (.plain m r) →
      esBuildFilterExpressions root (f + 2) [(k1, v)] none pe
        = esBuildFilterExpressions root (f + 2) [(k2, v)] none pe) := by
  constructor
  · intro S ig root f k1 k2 fld ct v reg hs1 hs2 hl1 hl2 hq hr hc hv
    simp only [buildFilterExpressions, sqlaCollect, hl1, hl2, hs1, hs2,
               sqlaParseTokens, List.length_cons, List.length_nil]
    simp only [sqlaGo, hq, if_neg, initParseSt, opBranchOn, hr, hc,
               lookupStr, bind, Except.bind]
    simp [opOfToken, inUnderscoreOps, isFuncToken, pushChain,
          sqlaDeserializeValue_notList ct v hv]
  · intro root k1 k2 fld m r v f pe hs1 hs2 hl1 hl2 hq hm
    simp only [esBuildFilterExpressions, esCollect, hl1, hl2, hs1, hs2,
               esParseTokens, bind, Except.bind]
    simp [esGo, hq, hm, esOpOf, lookupStr, wrapNested, startsWithNot,
          esCombine, bind, Except.bind]

/-- C7 witness: bare key versus `__exact` at the concrete field `name` and
value `"val"`, on both backends. -/
theorem c7_witness :
    (buildFilterExpressions exSchema false 0 7 [("name", .vS "val")] none regEmpty
      = buildFilterExpressions exSchema false 0 7 [("name__exact", .vS "val")] none regEmpty)
    ∧ (esBuildFilterExpressions exDoc 7 [("name", .vS "val")] none true
      = esBuildFilterExpressions exDoc 7 [("name__exact", .vS "val")] none true) :=
  ⟨c7_theorem.1 exSchema false 0 5 "name" "name__exact" "name" .other (.vS "val")
     regEmpty rfl rfl rfl rfl (by decide) rfl rfl rfl,
   c7_theorem.2 exDoc "name" "name__exact" "name" false false (.vS "val") 5 true
     rfl rfl rfl rfl (by decide) rfl⟩

/-- Literal lists are lists. -/
@[simp] theorem isVList_vList (l : List SqlE) : isVList (.vList l) = true := rfl

/-- Literal lists are lists (document backend). -/
@[simp] theorem isEVList_vList (l : List EE) : isEVList (.vList l) = true := rfl

/-- C4 amended: a bare scalar is coerced into a one-element list only for
the operators the source actually listifies — `range` and `in` on the
relational backend (`between_op`/`in_op`; the `not`-prefixed and
set-membership variants pass the scalar through, as the counterexample
shows), and `range`, `notrange`, `in`, `notin`, `hasany`, `overlap` on the
document backend — and for those operators compiling the scalar equals
compiling the one-element list. -/
theorem c4_theorem :
    (∀ (S : SqlSchema) (ig : Bool) (root : Nat) (fld tok : String)
       (ct : ColType) (v : SqlE) (reg : Registry) (dflt : SqlaDflt),
      tok = "range" ∨ tok = "in" →
      fld ≠ "q" →
      lookupStr (S root).rels fld = none →
      lookupStr (S root).columns fld = some ct →
      isVList v = false →
      sqlaParseTokens S ig root [fld, tok] v reg dflt
        = sqlaParseTokens S ig root [fld, tok] (.vList [v]) reg dflt)
    ∧ (∀ (root : EDocInfo) (fld tok : String) (m r : Bool) (v : EE)
         (dflt : EDflt) (pe pr : Bool),
      tok = "range" ∨ tok = "notrange" ∨ tok = "in" ∨ tok = "notin" ∨
        tok = "hasany" ∨ tok = "overlap" →
      fld ≠ "q" →
      lookupStr root.mapping fld = some (.plain m r) →
      isEVList v = false →
      esParseTokens root [fld, tok] v dflt pe pr
        = esParseTokens root [fld, tok] (.vList [v]) dflt pe pr) := by
  constructor
  · intro S ig root fld tok ct v reg dflt htok hq hr hc hv
    rcases htok with h | h <;> subst h <;>
      simp [sqlaParseTokens, sqlaGo, hq, hr, hc, opBranchOn, inUnderscoreOps,
            opOfToken, isFuncToken, hv, bind, Except.bind,
            initParseSt, pushChain]
  · intro root fld tok m r v dflt pe pr htok hq hm hv
    rcases htok with h | h | h | h | h | h <;> subst h <;>
      simp [esParseTokens, esGo, hq, hm, esOpOf, lookupStr, hv,
            bind, Except.bind, wrapNested, startsWithNot]

/-- C4 witness: scalar-versus-list agreement for `in` on the relational
backend and `notin` on the document backend at concrete inputs. -/
theorem c4_witness :
    (sqlaParseTokens exSchema false 0 ["name", "in"] (.vS "x") regEmpty .eqD
      = sqlaParseTokens exSchema false 0 ["name", "in"] (.vList [.vS "x"]) regEmpty .eqD)
    ∧ (esParseTokens exDoc ["name", "notin"] (.vS "x") .termD true false
      = esParseTokens exDoc ["name", "notin"] (.vList [.vS "x"]) .termD true false) :=
  ⟨c4_theorem.1 exSchema false 0 "name" "in" .other (.vS "x") regEmpty .eqD
     (Or.inr rfl) (by decide) rfl rfl rfl,
   c4_theorem.2 exDoc "name" "notin" false false (.vS "x") .termD true false
     (Or.inr (Or.inr (Or.inr (Or.inl rfl)))) (by decide) rfl rfl⟩


/-- C3 amended: token resolution is not longest-match.  On the document
backend a relationship (nested) prefix commits the hop at the next token,
before the longer accumulated name is inspected, so a nested prefix shadows
any field whose name extends it (first conjunct); accumulation only serves
field names whose `__`-prefix matches nothing in the mapping (third
conjunct).  On the relational backend tokens are matched one at a time with
relationships taking precedence, with no accumulation at all (second
conjunct). -/
theorem c3_theorem :
    (∀ (mapping : List (String × EFieldT)) (hTQ tq m r : Bool)
       (sub : List (String × EFieldT)) (t1 t2 : String) (v : EE),
      t1 ≠ "q" → t2 ≠ "q" → t1 ≠ "" →
      lookupStr mapping t1 = some (.nestedF tq sub) →
      lookupStr sub t2 = some (.plain m r) →
      esParseTokens ⟨mapping, hTQ⟩ [t1, t2] v .termD true false
        = .ok (some (.nestedQ t1 (.opE "term" (t1 ++ "." ++ t2) v true))))
    ∧ (∀ (S : SqlSchema) (ig : Bool) (root : Nat) (t1 t2 : String) (tgt : Nat)
         (ct : ColType) (v : SqlE) (reg : Registry),
      t1 ≠ "q" → t2 ≠ "q" →
      lookupStr (S root).rels t1 = some tgt →
      lookupStr (S tgt).rels t2 = none →
      lookupStr (S tgt).columns t2 = some ct →
      sqlaParseTokens S ig root [t1, t2] v reg .eqD
        = (deserializeColumn ct v).map
            (fun dv =>
              (some (.app .eqOp (.colref (.alias (nextAlias reg t1).1) t2) dv),
               { (nextAlias reg t1).2 with
                   joinChains := (nextAlias reg t1).2.joinChains
                     ++ [⟨[t1], [((nextAlias reg t1).1, t1)], false⟩] })))
    ∧ (∀ (mapping : List (String × EFieldT)) (hTQ m r : Bool)
         (t1 t2 : String) (v : EE),
      t1 ≠ "q" → t2 ≠ "q" → t1 ≠ "" →
      lookupStr mapping t1 = none →
      lookupStr mapping (t1 ++ "__" ++ t2) = some (.plain m r) →
      esParseTokens ⟨mapping, hTQ⟩ [t1, t2] v .termD true false
        = .ok (some (.opE "term" (t1 ++ "__" ++ t2) v true))) := by
  refine ⟨?_, ?_, ?_⟩
  · intro mapping hTQ tq m r sub t1 t2 v h1 h2 h3 hm hsub
    simp [esParseTokens, esGo, h1, h2, h3, hm, hsub, wrapNested]
  · intro S ig root t1 t2 tgt ct v reg h1 h2 hrel hr2 hc2
    cases hna : nextAlias reg t1 with
    | mk aid reg2 =>
        cases hd : deserializeColumn ct v <;>
          simp [sqlaParseTokens, sqlaGo, h1, h2, hrel, hr2, hc2, hna, hd,
                opBranchOn, initParseSt, pushChain, bind, Except.bind,
                Except.map]
  · intro mapping hTQ m r t1 t2 v h1 h2 h3 hm1 hm2
    simp [esParseTokens, esGo, h1, h2, h3, hm1, hm2, wrapNested]

/-- C3 witness: the amended resolution facts at concrete inputs (the
fixture mapping and schema, tokens `a` then `b`). -/
theorem c3_witness :
    (esParseTokens ⟨[("a", .nestedF false [("b", .plain false false)])], false⟩
       ["a", "b"] (.vS "x") .termD true false
     = .ok (some (.nestedQ "a" (.opE "term" ("a" ++ "." ++ "b") (.vS "x") true))))
    ∧ (sqlaParseTokens exSchema false 0 ["a", "b"] (.vS "x") regEmpty .eqD
       = (deserializeColumn .other (.vS "x")).map
           (fun dv =>
             (some (.app .eqOp
                (.colref (.alias (nextAlias regEmpty "a").1) "b") dv),
              { (nextAlias regEmpty "a").2 with
                  joinChains := (nextAlias regEmpty "a").2.joinChains
                    ++ [⟨["a"], [((nextAlias regEmpty "a").1, "a")], false⟩] })))
    ∧ (esParseTokens ⟨[("a__b", .plain false false)], false⟩
         ["a", "b"] (.vS "x") .termD true false
       = .ok (some (.opE "term" ("a" ++ "__" ++ "b") (.vS "x") true))) :=
  ⟨c3_theorem.1 [("a", .nestedF false [("b", .plain false false)])]
     false false false false [("b", .plain false false)] "a" "b" (.vS "x")
     (by decide) (by decide) (by decide) rfl rfl,
   c3_theorem.2.1 exSchema false 0 "a" "b" 3 .other (.vS "x") regEmpty
     (by decide) (by decide) rfl rfl rfl,
   c3_theorem.2.2 [("a__b", .plain false false)] false false false "a" "b"
     (.vS "x") (by decide) (by decide) (by decide) rfl rfl⟩

/-- C8 amended: on the relational backend a single token that is neither a
relationship nor a column raises the invalid-attribute error naming the
offending token (first conjunct), but a token naming a relationship is
silently dropped — no expression and no error, only a registered join chain
(second conjunct); on the document backend any single token that does not
bind a plain field — unknown or naming a nested relation — raises the
invalid-attribute error naming the joined path (third and fourth
conjuncts). -/
theorem c8_theorem :
    (∀ (S : SqlSchema) (root : Nat) (t : String) (v : SqlE)
       (reg : Registry) (dflt : SqlaDflt),
      t ≠ "q" →
      lookupStr (S root).rels t = none →
      lookupStr (S root).columns t = none →
      sqlaParseTokens S false root [t] v reg dflt
        = .error (.invalidColumn [t] t))
    ∧ (∀ (S : SqlSchema) (root : Nat) (t : String) (tgt : Nat) (v : SqlE)
         (reg : Registry) (dflt : SqlaDflt),
      t ≠ "q" →
      lookupStr (S root).rels t = some tgt →
      sqlaParseTokens S false root [t] v reg dflt
        = .ok (none,
               { (nextAlias reg t).2 with
                   joinChains := (nextAlias reg t).2.joinChains
                     ++ [⟨[t], [((nextAlias reg t).1, t)], false⟩] }))
    ∧ (∀ (mapping : List (String × EFieldT)) (hTQ : Bool) (t : String)
         (v : EE) (dflt : EDflt) (pe pr : Bool),
      t ≠ "q" →
      lookupStr mapping t = none →
      esParseTokens ⟨mapping, hTQ⟩ [t] v dflt pe pr
        = .error (.invalidColumnPath [t]))
    ∧ (∀ (mapping : List (String × EFieldT)) (hTQ tq : Bool)
         (sub : List (String × EFieldT)) (t : String) (v : EE) (dflt : EDflt)
         (pe pr : Bool),
      t ≠ "q" →
      lookupStr mapping t = some (.nestedF tq sub) →
      esParseTokens ⟨mapping, hTQ⟩ [t] v dflt pe pr
        = .error (.invalidColumnPath [t])) := by
  refine ⟨?_, ?_, ?_, ?_⟩
  · intro S root t v reg dflt h1 hr hc
    cases dflt <;>
      simp [sqlaParseTokens, sqlaGo, h1, hr, hc, opBranchOn, initParseSt]
  · intro S root t tgt v reg dflt h1 hrel
    cases hna : nextAlias reg t with
    | mk aid reg2 =>
        cases dflt <;>
          simp [sqlaParseTokens, sqlaGo, h1, hrel, hna, opBranchOn,
                initParseSt, pushChain]
  · intro mapping hTQ t v dflt pe pr h1 hm
    cases dflt <;> simp [esParseTokens, esGo, h1, hm]
  · intro mapping hTQ tq sub t v dflt pe pr h1 hm
    cases dflt <;> simp [esParseTokens, esGo, h1, hm]

/-- C8 witness: the amended error and silent-relationship facts at concrete
inputs on the fixture schema and mapping. -/
theorem c8_witness :
    (sqlaParseTokens exSchema false 0 ["bogus_field"] (.vI 1) regEmpty .eqD
      = .error (.invalidColumn ["bogus_field"] "bogus_field"))
    ∧ (sqlaParseTokens exSchema false 0 ["rel"] (.vI 1) regEmpty .eqD
      = .ok (none,
             { (nextAlias regEmpty "rel").2 with
                 joinChains := (nextAlias regEmpty "rel").2.joinChains
                   ++ [⟨["rel"], [((nextAlias regEmpty "rel").1, "rel")], false⟩] }))
    ∧ (esParseTokens ⟨[("name", .plain false false)], false⟩
         ["bogus_field"] (.vI 1) .termD true false
       = .error (.invalidColumnPath ["bogus_field"]))
    ∧ (esParseTokens ⟨[("a", .nestedF false [])], false⟩
         ["a"] (.vI 1) .termD true false
       = .error (.invalidColumnPath ["a"])) :=
  ⟨c8_theorem.1 exSchema 0 "bogus_field" (.vI 1) regEmpty .eqD
     (by decide) rfl rfl,
   c8_theorem.2.1 exSchema 0 "rel" 1 (.vI 1) regEmpty .eqD (by decide) rfl,
   c8_theorem.2.2.1 [("name", .plain false false)] false "bogus_field"
     (.vI 1) .termD true false (by decide) rfl,
   c8_theorem.2.2.2 [("a", .nestedF false [])] false false [] "a"
     (.vI 1) .termD true false (by decide) rfl⟩


/-- The `is_longest` result of the inner `_apply_joins` scan: true exactly
when every registered chain either has the same token path or does not
subsume this chain's token set. -/
theorem innerScan_fst (a : JoinChain) :
    ∀ (bs : List JoinChain) (acc : Bool),
      (innerScan a bs acc).1
        = bs.all (fun b => decide (a.tokens = b.tokens)
            || !decide (tokensSubset a.tokens b.tokens)) := by
  intro bs
  induction bs with
  | nil => intro acc; simp [innerScan]
  | cons b rest ih =>
      intro acc
      by_cases h1 : a.tokens = b.tokens
      · simp [innerScan, h1, ih]
      · by_cases h2 : tokensSubset a.tokens b.tokens
        · simp [innerScan, h1, h2]
        · simp [innerScan, h1, h2, ih]

/-- The `any_is_outer` result of the inner `_apply_joins` scan, when the
scan completes: the accumulator or any chain with the same token path that
is outer. -/
theorem innerScan_snd (a : JoinChain) :
    ∀ (bs : List JoinChain) (acc : Bool),
      (innerScan a bs acc).1 = true →
      (innerScan a bs acc).2
        = (acc || bs.any (fun b => decide (a.tokens = b.tokens) && b.outer)) := by
  intro bs
  induction bs with
  | nil => intro acc _; simp [innerScan]
  | cons b rest ih =>
      intro acc h
      by_cases h1 : a.tokens = b.tokens
      · simp only [innerScan, if_pos h1] at h ⊢
        rw [ih _ h]
        simp [h1, Bool.or_assoc]
      · by_cases h2 : tokensSubset a.tokens b.tokens
        · simp [innerScan, h1, h2] at h
        · simp only [innerScan, if_neg h1, if_neg h2] at h ⊢
          rw [ih _ h]
          simp [h1]

/-- Membership in the `longest_chains` accumulator loop. -/
theorem longestLoop_mem (all : List JoinChain) :
    ∀ (rest : List JoinChain) (acc : List (List (Nat × String) × Bool))
      (p : List (Nat × String) × Bool),
      p ∈ longestLoop all rest acc ↔
        p ∈ acc ∨ ∃ c ∈ rest, (innerScan c all c.outer).1 = true ∧
          p = (c.ext, (innerScan c all c.outer).2) := by
  intro rest
  induction rest with
  | nil => intro acc p; simp [longestLoop]
  | cons a rs ih =>
      intro acc p
      simp only [longestLoop]
      by_cases h1 : (innerScan a all a.outer).1 = true
      · by_cases h2 : (a.ext, (innerScan a all a.outer).2) ∈ acc
        · rw [if_neg (by simp [h1, h2])]
          rw [ih]
          constructor
          · rintro (hp | hc)
            · exact Or.inl hp
            · exact Or.inr (by rcases hc with ⟨c, hcm, hx⟩; exact ⟨c, .tail _ hcm, hx⟩)
          · rintro (hp | ⟨c, hcm, hx1, hx2⟩)
            · exact Or.inl hp
            · rcases List.mem_cons.mp hcm with hceq | hcm2
              · subst hceq; exact Or.inl (hx2 ▸ h2)
              · exact Or.inr ⟨c, hcm2, hx1, hx2⟩
        · rw [if_pos (by simp [h1, h2])]
          rw [ih]
          simp only [List.mem_append, List.mem_singleton]
          constructor
          · rintro ((hp | hpe) | hc)
            · exact Or.inl hp
            · exact Or.inr ⟨a, .head _, h1, hpe⟩
            · rcases hc with ⟨c, hcm, hx⟩
              exact Or.inr ⟨c, .tail _ hcm, hx⟩
          · rintro (hp | ⟨c, hcm, hx1, hx2⟩)
            · exact Or.inl (Or.inl hp)
            · rcases List.mem_cons.mp hcm with hceq | hcm2
              · subst hceq; exact Or.inl (Or.inr hx2)
              · exact Or.inr ⟨c, hcm2, hx1, hx2⟩
      · rw [if_neg (by simp [h1])]
        rw [ih]
        constructor
        · rintro (hp | hc)
          · exact Or.inl hp
          · rcases hc with ⟨c, hcm, hx⟩
            exact Or.inr ⟨c, .tail _ hcm, hx⟩
        · rintro (hp | ⟨c, hcm, hx1, hx2⟩)
          · exact Or.inl hp
          · rcases List.mem_cons.mp hcm with hceq | hcm2
            · subst hceq; exact absurd hx1 h1
            · exact Or.inr ⟨c, hcm2, hx1, hx2⟩

/-- C1 amended: a pair `(extended_chain, outer_flag)` is materialized by
`_apply_joins` iff it comes from a registered chain that is maximal (no
other registered chain with a different token path subsumes its token set),
and its outer flag is true iff some registered chain with the *identical*
token path (itself included) required an outer join — the outer-join
requirement of a dropped strict-subset chain is not carried over (see the
counterexample). -/
theorem c1_theorem (chains : List JoinChain)
    (p : List (Nat × String) × Bool) :
    p ∈ longestChains chains ↔
      ∃ c ∈ chains,
        (∀ b ∈ chains, c.tokens = b.tokens ∨ ¬ tokensSubset c.tokens b.tokens)
        ∧ p = (c.ext,
               c.outer ||
                 chains.any (fun b => decide (c.tokens = b.tokens) && b.outer)) := by
  rw [longestChains, longestLoop_mem]
  simp only [List.not_mem_nil, false_or]
  constructor
  · rintro ⟨c, hc, h1, h2⟩
    refine ⟨c, hc, ?_, ?_⟩
    · intro b hb
      have hf := innerScan_fst c chains c.outer
      rw [hf, List.all_eq_true] at h1
      have hx := h1 b hb
      simpa using hx
    · rw [innerScan_snd c chains c.outer h1] at h2
      exact h2
  · rintro ⟨c, hc, hmax, hp⟩
    have h1 : (innerScan c chains c.outer).1 = true := by
      rw [innerScan_fst, List.all_eq_true]
      intro b hb
      have hx := hmax b hb
      simpa using hx
    exact ⟨c, hc, h1, by rw [innerScan_snd c chains c.outer h1]; exact hp⟩


/-- A pair list containing an offending falsy `group_by` or non-int
`group_limit` makes the SQLAlchemy totals pair loop fail. -/
theorem sqlaTotalsPairs_err (S : SqlSchema) (ig : Bool) (root : Nat) :
    ∀ (pairs : List (String × SqlE)) (acc : TotalsAcc) (c : SqlE),
      (("group_by", c) ∈ pairs ∧ truthySqlE c = false)
        ∨ (("group_limit", c) ∈ pairs ∧ isIntSqlE c = false) →
      ∃ e, sqlaTotalsPairs S ig root pairs acc = .error e := by
  intro pairs
  induction pairs with
  | nil => rintro acc c ((h | h)) <;> simp at h
  | cons hd rest ih =>
      rintro acc c h
      obtain ⟨agg, cols⟩ := hd
      by_cases hgl : agg = "group_limit"
      · subst hgl
        by_cases hint : isIntSqlE cols
        · have hrec : (("group_by", c) ∈ rest ∧ truthySqlE c = false)
              ∨ (("group_limit", c) ∈ rest ∧ isIntSqlE c = false) := by
            rcases h with ⟨hm, hx⟩ | ⟨hm, hx⟩
            · rcases List.mem_cons.mp hm with heq | hm2
              · exact absurd (congrArg Prod.fst heq).symm (by simp)
              · exact Or.inl ⟨hm2, hx⟩
            · rcases List.mem_cons.mp hm with heq | hm2
              · have : c = cols := ((Prod.mk.injEq _ _ _ _ |>.mp heq.symm).2).symm
                subst this; exact absurd hint (by simp [hx])
              · exact Or.inr ⟨hm2, hx⟩
          obtain ⟨e, he⟩ := ih _ c hrec
          exact ⟨e, by simpa [sqlaTotalsPairs, hint] using he⟩
        · exact ⟨.groupLimitNotInt, by
            simp [sqlaTotalsPairs, Bool.not_eq_true] at hint ⊢
            simp [hint]⟩
      · by_cases htr : truthySqlE cols
        · have hrec : (("group_by", c) ∈ rest ∧ truthySqlE c = false)
              ∨ (("group_limit", c) ∈ rest ∧ isIntSqlE c = false) := by
            rcases h with ⟨hm, hx⟩ | ⟨hm, hx⟩
            · rcases List.mem_cons.mp hm with heq | hm2
              · have h2 : c = cols := ((Prod.mk.injEq _ _ _ _ |>.mp heq.symm).2).symm
                subst h2; exact absurd htr (by simp [hx])
              · exact Or.inl ⟨hm2, hx⟩
            · rcases List.mem_cons.mp hm with heq | hm2
              · exact absurd ((congrArg Prod.fst heq).symm) hgl
              · exact Or.inr ⟨hm2, hx⟩
          cases hcols : sqlaTotalsCols S ig root agg (listifySqlE cols) acc with
          | error e =>
              exact ⟨e, by
                simp [sqlaTotalsPairs, hgl, htr, bind, Except.bind, hcols]⟩
          | ok acc2 =>
              obtain ⟨e, he⟩ := ih acc2 c hrec
              exact ⟨e, by
                simp [sqlaTotalsPairs, hgl, htr, bind, Except.bind, hcols, he]⟩
        · by_cases hgb : agg = "group_by"
          · exact ⟨.groupByNoColumns, by
              simp [sqlaTotalsPairs, hgl, hgb, Bool.not_eq_true] at htr ⊢
              simp [htr]⟩
          · have hrec : (("group_by", c) ∈ rest ∧ truthySqlE c = false)
                ∨ (("group_limit", c) ∈ rest ∧ isIntSqlE c = false) := by
              rcases h with ⟨hm, hx⟩ | ⟨hm, hx⟩
              · rcases List.mem_cons.mp hm with heq | hm2
                · exact absurd ((congrArg Prod.fst heq).symm) hgb
                · exact Or.inl ⟨hm2, hx⟩
              · rcases List.mem_cons.mp hm with heq | hm2
                · exact absurd ((congrArg Prod.fst heq).symm) hgl
                · exact Or.inr ⟨hm2, hx⟩
            obtain ⟨e, he⟩ := ih _ c hrec
            exact ⟨e, by simpa [sqlaTotalsPairs, hgl, htr, hgb] using he⟩

/-- A totals list with an offending dict makes the SQLAlchemy totals dict
loop fail. -/
theorem sqlaTotalsDicts_err (S : SqlSchema) (ig : Bool) (root : Nat) :
    ∀ (dicts : List (List (String × SqlE))) (acc : TotalsAcc)
      (d : List (String × SqlE)),
      d ∈ dicts →
      (∀ acc2, ∃ e, sqlaTotalsPairs S ig root d acc2 = .error e) →
      ∃ e, sqlaTotalsDicts S ig root dicts acc = .error e := by
  intro dicts
  induction dicts with
  | nil => intro acc d hd; simp at hd
  | cons d0 rest ih =>
      intro acc d hd hp
      rcases List.mem_cons.mp hd with heq | hm
      · subst heq
        obtain ⟨e, he⟩ := hp acc
        exact ⟨e, by simp [sqlaTotalsDicts, bind, Except.bind, he]⟩
      · cases h0 : sqlaTotalsPairs S ig root d0 acc with
        | error e => exact ⟨e, by simp [sqlaTotalsDicts, bind, Except.bind, h0]⟩
        | ok acc2 =>
            obtain ⟨e, he⟩ := ih acc2 d hm hp
            exact ⟨e, by simp [sqlaTotalsDicts, bind, Except.bind, h0, he]⟩

/-- First-match lookup finds a pair of a dict with unique keys. -/
theorem lookupStr_mem_nodup {α : Type} :
    ∀ (d : List (String × α)) (k : String) (c : α),
      (d.map Prod.fst).Nodup → (k, c) ∈ d → lookupStr d k = some c := by
  intro d
  induction d with
  | nil => intro k c _ h; simp at h
  | cons hd rest ih =>
      intro k c hnd hm
      obtain ⟨k1, v1⟩ := hd
      simp only [List.map_cons, List.nodup_cons] at hnd
      rcases List.mem_cons.mp hm with heq | hm2
      · obtain ⟨h1, h2⟩ := Prod.mk.injEq _ _ _ _ |>.mp heq.symm
        subst h1; subst h2
        simp [lookupStr]
      · have hk : k1 ≠ k := by
          intro hk; subst hk
          exact hnd.1 (by simpa using List.mem_map_of_mem Prod.fst hm2)
        simp [lookupStr, hk, ih k c hnd.2 hm2]

/-- A totals dict with unique keys and a non-int `group_limit` makes the
first Elasticsearch totals pass fail with the group-limit error. -/
theorem esPass1Dicts_err :
    ∀ (dicts : List (List (String × EE))) (gl : Int)
      (d : List (String × EE)) (c : EE),
      d ∈ dicts → ("group_limit", c) ∈ d → (d.map Prod.fst).Nodup →
      isIntEE c = false →
      esPass1Dicts dicts gl = .error .groupLimitNotInt := by
  intro dicts
  induction dicts with
  | nil => intro gl d c hd; simp at hd
  | cons d0 rest ih =>
      intro gl d c hd hm hnd hint
      rcases List.mem_cons.mp hd with heq | hd2
      · subst heq
        simp [esPass1Dicts, lookupStr_mem_nodup d "group_limit" c hnd hm, hint]
      · cases hl : lookupStr d0 "group_limit" with
        | none => simpa [esPass1Dicts, hl] using ih gl d c hd2 hm hnd hint
        | some v =>
            by_cases hv : isIntEE v
            · simpa [esPass1Dicts, hl, hv] using ih (intOfEE v) d c hd2 hm hnd hint
            · simp [esPass1Dicts, hl, hv]

/-- A totals dict with unique keys and a falsy `group_by` makes the second
Elasticsearch totals pass fail. -/
theorem esPass2Dicts_err (root : EDocInfo) (fuel : Nat) (gl : Int) :
    ∀ (dicts : List (List (String × EE)))
      (st : List String × List (String × EAggNode))
      (d : List (String × EE)) (c : EE),
      d ∈ dicts → ("group_by", c) ∈ d → (d.map Prod.fst).Nodup →
      truthyEE c = false →
      ∃ e, esPass2Dicts root fuel gl dicts st = .error e := by
  intro dicts
  induction dicts with
  | nil => intro st d c hd; simp at hd
  | cons d0 rest ih =>
      intro st d c hd hm hnd htr
      rcases List.mem_cons.mp hd with heq | hd2
      · subst heq
        refine ⟨.groupByNoColumns, ?_⟩
        rw [show esPass2Dicts root fuel gl (d :: rest) st
              = (do
                  let st2 ←
                    match lookupStr d "group_by" with
                    | none => .ok st
                    | some columns =>
                        if !truthyEE columns then .error .groupByNoColumns
                        else esPass2Cols root fuel gl (listifyEE columns) st
                  esPass2Dicts root fuel gl rest st2) from rfl]
        rw [lookupStr_mem_nodup d "group_by" c hnd hm]
        simp [htr, bind, Except.bind]
      · cases hl : lookupStr d0 "group_by" with
        | none =>
            obtain ⟨e, he⟩ := ih st d c hd2 hm hnd htr
            exact ⟨e, by simp [esPass2Dicts, hl, bind, Except.bind, he]⟩
        | some columns =>
            by_cases hc : truthyEE columns
            · cases h2 : esPass2Cols root fuel gl (listifyEE columns) st with
              | error e =>
                  exact ⟨e, by simp [esPass2Dicts, hl, hc, bind, Except.bind, h2]⟩
              | ok st2 =>
                  obtain ⟨e, he⟩ := ih st2 d c hd2 hm hnd htr
                  exact ⟨e, by simp [esPass2Dicts, hl, hc, bind, Except.bind, h2, he]⟩
            · exact ⟨.groupByNoColumns, by
                simp [esPass2Dicts, hl, bind, Except.bind,
                      Bool.not_eq_true] at hc ⊢
                simp [hc]⟩

/-- C9: on both backends the aggregate builder fails — producing no
aggregate query — whenever a totals entry contains a `group_by` with zero
columns (falsy value) or a `group_limit` whose value is not an int (on the
document backend, whose pass over the dict pairs stops at the first
matching key, the dict keys are assumed unique, as Python dict keys are;
the group-limit failure there is exactly the group-limit client error). -/
theorem c9_theorem :
    (∀ (S : SqlSchema) (ig : Bool) (root : Nat)
       (totals : List (List (String × SqlE)))
       (d : List (String × SqlE)) (c : SqlE),
      d ∈ totals → ("group_by", c) ∈ d → truthySqlE c = false →
      ∃ e, sqlaBuildTotalExpressions S ig root totals = .error e)
    ∧ (∀ (S : SqlSchema) (ig : Bool) (root : Nat)
         (totals : List (List (String × SqlE)))
         (d : List (String × SqlE)) (c : SqlE),
      d ∈ totals → ("group_limit", c) ∈ d → isIntSqlE c = false →
      ∃ e, sqlaBuildTotalExpressions S ig root totals = .error e)
    ∧ (∀ (root : EDocInfo) (fuel : Nat) (totals : List (List (String × EE)))
         (d : List (String × EE)) (c : EE),
      d ∈ totals → ("group_limit", c) ∈ d → (d.map Prod.fst).Nodup →
      isIntEE c = false →
      esBuildTotalExpressions root fuel totals = .error .groupLimitNotInt)
    ∧ (∀ (root : EDocInfo) (fuel : Nat) (totals : List (List (String × EE)))
         (d : List (String × EE)) (c : EE),
      d ∈ totals → ("group_by", c) ∈ d → (d.map Prod.fst).Nodup →
      truthyEE c = false →
      ∃ e, esBuildTotalExpressions root fuel totals = .error e) := by
  refine ⟨?_, ?_, ?_, ?_⟩
  · intro S ig root totals d c hd hm htr
    obtain ⟨e, he⟩ := sqlaTotalsDicts_err S ig root totals ⟨none, [], [], [], ⟨[], 0, []⟩⟩ d hd
      (fun acc2 => sqlaTotalsPairs_err S ig root d acc2 c (Or.inl ⟨hm, htr⟩))
    exact ⟨e, by simp [sqlaBuildTotalExpressions, bind, Except.bind, he]⟩
  · intro S ig root totals d c hd hm hint
    obtain ⟨e, he⟩ := sqlaTotalsDicts_err S ig root totals ⟨none, [], [], [], ⟨[], 0, []⟩⟩ d hd
      (fun acc2 => sqlaTotalsPairs_err S ig root d acc2 c (Or.inr ⟨hm, hint⟩))
    exact ⟨e, by simp [sqlaBuildTotalExpressions, bind, Except.bind, he]⟩
  · intro root fuel totals d c hd hm hnd hint
    have h1 := esPass1Dicts_err totals 0 d c hd hm hnd hint
    simp [esBuildTotalExpressions, bind, Except.bind, h1]
  · intro root fuel totals d c hd hm hnd htr
    cases h1 : esPass1Dicts totals 0 with
    | error e =>
        exact ⟨e, by simp [esBuildTotalExpressions, bind, Except.bind, h1]⟩
    | ok gl =>
        obtain ⟨e, he⟩ := esPass2Dicts_err root fuel gl totals ([], []) d c hd hm hnd htr
        exact ⟨e, by simp [esBuildTotalExpressions, bind, Except.bind, h1, he]⟩

/-- C9 witness: a `group_by` with an empty column list and a `group_limit`
with a string value each make the builders fail, on both backends. -/
theorem c9_witness :
    (∃ e, sqlaBuildTotalExpressions exSchema false 0
            [[("group_by", .vList [])]] = .error e)
    ∧ (∃ e, sqlaBuildTotalExpressions exSchema false 0
            [[("group_limit", .vS "x")]] = .error e)
    ∧ (esBuildTotalExpressions exDoc 9 [[("group_limit", .vS "x")]]
        = .error .groupLimitNotInt)
    ∧ (∃ e, esBuildTotalExpressions exDoc 9 [[("group_by", .vList [])]]
        = .error e) :=
  ⟨c9_theorem.1 exSchema false 0 [[("group_by", .vList [])]]
     [("group_by", .vList [])] (.vList []) (by simp) (by simp) (by decide),
   c9_theorem.2.1 exSchema false 0 [[("group_limit", .vS "x")]]
     [("group_limit", .vS "x")] (.vS "x") (by simp) (by simp) (by decide),
   c9_theorem.2.2.1 exDoc 9 [[("group_limit", .vS "x")]]
     [("group_limit", .vS "x")] (.vS "x") (by simp) (by simp) (by simp) (by decide),
   c9_theorem.2.2.2 exDoc 9 [[("group_by", .vList [])]]
     [("group_by", .vList [])] (.vList []) (by simp) (by simp) (by simp) (by decide)⟩


/-- C1 witness: the amended materialization characterization at the
counterexample's chain list and surviving pair. -/
theorem c1_witness :
    ([(0, "rel"), (1, "sub")], false)
        ∈ longestChains
            [⟨["rel"], [(0, "rel")], true⟩,
             ⟨["rel", "sub"], [(0, "rel"), (1, "sub")], false⟩]
      ↔ ∃ c ∈ [(⟨["rel"], [(0, "rel")], true⟩ : JoinChain),
               ⟨["rel", "sub"], [(0, "rel"), (1, "sub")], false⟩],
          (∀ b ∈ [(⟨["rel"], [(0, "rel")], true⟩ : JoinChain),
                  ⟨["rel", "sub"], [(0, "rel"), (1, "sub")], false⟩],
             c.tokens = b.tokens ∨ ¬ tokensSubset c.tokens b.tokens)
          ∧ ([(0, "rel"), (1, "sub")], false)
              = (c.ext,
                 c.outer ||
                   [(⟨["rel"], [(0, "rel")], true⟩ : JoinChain),
                    ⟨["rel", "sub"], [(0, "rel"), (1, "sub")], false⟩].any
                     (fun b => decide (c.tokens = b.tokens) && b.outer)) :=
  c1_theorem
    [⟨["rel"], [(0, "rel")], true⟩,
     ⟨["rel", "sub"], [(0, "rel"), (1, "sub")], false⟩]
    ([(0, "rel"), (1, "sub")], false)

/-- C6 witness: the negation equation at a concrete conditions mapping. -/
theorem c6_witness :
    buildFilterExpressions exSchema false 0 (2 + 3)
      [("not", .vDict [("and", .vDict [("name", .vS "x")])])] none regEmpty
    = (buildFilterExpressions exSchema false 0 (2 + 2)
        [("and", .vDict [("name", .vS "x")])] none regEmpty).map
        (fun p => (p.1.map .neg, p.2)) :=
  c6_theorem exSchema false 0 2 [("name", .vS "x")] regEmpty

end Falcon
